import Mathlib

/-!
Shallow embedding of the mikroroom signaling-server core: the room
registry (`RoomManager` in `room-manager.ts`) and the per-connection
protocol dispatcher (`SignalingServer` in `signaling-server.ts`),
together with proofs about the registry invariants and the dispatcher's
observable behaviour.

JavaScript `Map` objects are modelled as insertion-ordered association
lists (`JMap`): `Map.set` replaces an existing key in place or appends a
fresh binding, `Map.delete` removes the binding, and iteration order is
list order.  This matches the JS iteration semantics the source relies
on (`participants.values().next().value` is the first-inserted entry).
Wall-clock reads (`Date.now()`) and random identifiers (`randomUUID()`)
are threaded in as explicit parameters.  Socket objects carry an
identity and their `readyState`; `socket.send` calls are collected into
an explicit outbound list instead of performing I/O.
-/

namespace Mikroroom

/-- Insertion-ordered association list modelling a JavaScript `Map`. -/
abbrev JMap (K V : Type) : Type := List (K × V)

namespace JMap

variable {K V : Type} [DecidableEq K]

/-- `Map.prototype.has`. -/
def hasKey (m : JMap K V) (k : K) : Bool := m.any (fun e => decide (e.1 = k))

/-- `Map.prototype.get` (returning `undefined` as `none`). -/
def get? (m : JMap K V) (k : K) : Option V :=
  (m.find? (fun e => decide (e.1 = k))).map (fun e => e.2)

/-- `Map.prototype.set`: overwrite an existing binding in place, else append. -/
def set : JMap K V → K → V → JMap K V
  | [], k, v => [(k, v)]
  | e :: rest, k, v => if e.1 = k then (k, v) :: rest else e :: set rest k v

/-- `Map.prototype.delete`. -/
def del : JMap K V → K → JMap K V
  | [], _ => []
  | e :: rest, k => if e.1 = k then del rest k else e :: del rest k

theorem get?_nil (k : K) : get? ([] : JMap K V) k = none := rfl

theorem get?_cons (e : K × V) (rest : JMap K V) (k : K) :
    get? (e :: rest) k = if e.1 = k then some e.2 else get? rest k := by
  by_cases h : e.1 = k <;> simp [get?, List.find?, h]

theorem hasKey_nil (k : K) : hasKey ([] : JMap K V) k = false := rfl

theorem hasKey_cons (e : K × V) (rest : JMap K V) (k : K) :
    hasKey (e :: rest) k = (decide (e.1 = k) || hasKey rest k) := by
  by_cases h : e.1 = k <;> simp [hasKey, h]

theorem set_nil (k : K) (v : V) : set ([] : JMap K V) k v = [(k, v)] := rfl

theorem set_cons (e : K × V) (rest : JMap K V) (k : K) (v : V) :
    set (e :: rest) k v = if e.1 = k then (k, v) :: rest else e :: set rest k v := by
  by_cases h : e.1 = k <;> simp [set, h]

theorem del_nil (k : K) : del ([] : JMap K V) k = [] := rfl

theorem del_cons (e : K × V) (rest : JMap K V) (k : K) :
    del (e :: rest) k = if e.1 = k then del rest k else e :: del rest k := by
  by_cases h : e.1 = k <;> simp [del, h]

theorem get?_set (m : JMap K V) (k k' : K) (v : V) :
    get? (set m k v) k' = if k' = k then some v else get? m k' := by
  induction m with
  | nil =>
    rw [set_nil, get?_cons, get?_nil]
    by_cases h : k' = k
    · rw [if_pos (show (k, v).1 = k' from h.symm), if_pos h]
    · rw [if_neg (show ¬ (k, v).1 = k' from fun hc => h hc.symm), if_neg h]
  | cons e rest ih =>
    rw [set_cons]
    by_cases hek : e.1 = k
    · rw [if_pos hek, get?_cons, get?_cons]
      by_cases h : k' = k
      · rw [if_pos (show (k, v).1 = k' from h.symm), if_pos h]
      · rw [if_neg (show ¬ (k, v).1 = k' from fun hc => h hc.symm), if_neg h,
          if_neg (show ¬ e.1 = k' from fun hc => h (hc.symm.trans hek))]
    · rw [if_neg hek, get?_cons, get?_cons, ih]
      by_cases he : e.1 = k'
      · have h : ¬ k' = k := fun hc => hek (he.trans hc)
        rw [if_pos he, if_neg h, if_pos he]
      · rw [if_neg he, if_neg he]

theorem mem_set {m : JMap K V} {k : K} {v : V} {e : K × V}
    (h : e ∈ set m k v) : e = (k, v) ∨ e ∈ m := by
  induction m with
  | nil =>
    rw [set_nil] at h
    exact Or.inl (by simpa using h)
  | cons hd rest ih =>
    rw [set_cons] at h
    by_cases hek : hd.1 = k
    · rw [if_pos hek] at h
      rcases List.mem_cons.mp h with h | h
      · exact Or.inl h
      · exact Or.inr (List.mem_cons_of_mem _ h)
    · rw [if_neg hek] at h
      rcases List.mem_cons.mp h with h | h
      · exact Or.inr (by simp [h])
      · rcases ih h with h | h
        · exact Or.inl h
        · exact Or.inr (List.mem_cons_of_mem _ h)

theorem length_set (m : JMap K V) (k : K) (v : V) :
    (set m k v).length = if hasKey m k then m.length else m.length + 1 := by
  induction m with
  | nil => rw [set_nil, hasKey_nil]; simp
  | cons hd rest ih =>
    rw [set_cons, hasKey_cons]
    by_cases hek : hd.1 = k
    · simp [hek]
    · rw [if_neg hek, List.length_cons, List.length_cons, ih]
      by_cases hr : hasKey rest k = true <;> simp [hr, hek]

theorem set_ne_nil (m : JMap K V) (k : K) (v : V) : set m k v ≠ [] := by
  cases m with
  | nil => rw [set_nil]; simp
  | cons hd rest =>
    rw [set_cons]
    by_cases hek : hd.1 = k <;> simp [hek]

theorem get?_del (m : JMap K V) (k k' : K) :
    get? (del m k) k' = if k' = k then none else get? m k' := by
  induction m with
  | nil =>
    rw [del_nil, get?_nil]
    by_cases h : k' = k
    · rw [if_pos h]
    · rw [if_neg h]
  | cons e rest ih =>
    rw [del_cons]
    by_cases hek : e.1 = k
    · rw [if_pos hek, ih, get?_cons]
      by_cases h : k' = k
      · rw [if_pos h, if_pos h]
      · rw [if_neg h, if_neg h, if_neg (show ¬ e.1 = k' from fun hc => h (hc.symm.trans hek))]
    · rw [if_neg hek, get?_cons, get?_cons, ih]
      by_cases he : e.1 = k'
      · have h : ¬ k' = k := fun hc => hek (he.trans hc)
        rw [if_pos he, if_neg h, if_pos he]
      · rw [if_neg he, if_neg he]

theorem mem_del {m : JMap K V} {k : K} {e : K × V}
    (h : e ∈ del m k) : e ∈ m := by
  induction m with
  | nil => rw [del_nil] at h; cases h
  | cons hd rest ih =>
    rw [del_cons] at h
    by_cases hek : hd.1 = k
    · rw [if_pos hek] at h
      exact List.mem_cons_of_mem _ (ih h)
    · rw [if_neg hek] at h
      rcases List.mem_cons.mp h with h | h
      · simp [h]
      · exact List.mem_cons_of_mem _ (ih h)

theorem length_del_le (m : JMap K V) (k : K) : (del m k).length ≤ m.length := by
  induction m with
  | nil => rw [del_nil]
  | cons hd rest ih =>
    rw [del_cons]
    by_cases hek : hd.1 = k
    · rw [if_pos hek]
      exact Nat.le_succ_of_le ih
    · rw [if_neg hek, List.length_cons, List.length_cons]
      omega

theorem get?_eq_some_mem {m : JMap K V} {k : K} {v : V}
    (h : get? m k = some v) : (k, v) ∈ m := by
  induction m with
  | nil => rw [get?_nil] at h; cases h
  | cons hd rest ih =>
    rw [get?_cons] at h
    by_cases hek : hd.1 = k
    · rw [if_pos hek] at h
      have hkv : hd = (k, v) := by
        cases hd with
        | mk a b =>
          simp only [Option.some.injEq] at h
          simp_all
      simp [hkv]
    · rw [if_neg hek] at h
      exact List.mem_cons_of_mem _ (ih h)

theorem get?_eq_none_of_hasKey_false {m : JMap K V} {k : K}
    (h : hasKey m k = false) : get? m k = none := by
  induction m with
  | nil => rw [get?_nil]
  | cons hd rest ih =>
    rw [hasKey_cons] at h
    rw [get?_cons]
    have h1 : ¬ hd.1 = k := by
      intro hc
      simp [hc] at h
    rw [if_neg h1]
    exact ih (by simp at h; simp [h.2])

theorem hasKey_of_get?_eq_some {m : JMap K V} {k : K} {v : V}
    (h : get? m k = some v) : hasKey m k = true := by
  by_cases hk : hasKey m k
  · exact hk
  · rw [get?_eq_none_of_hasKey_false (by simpa using hk)] at h
    cases h

end JMap

/-! ## Data model (`types.ts`)

`WebSocket` handles are modelled by an identity (`sid`) plus the
`readyState` field the source reads; closing is I/O and not tracked.
Optional TS fields (`password?`, `creatorToken?`, `hostId: string|null`)
become `Option`; `isPreCreated?: boolean` is a `Bool` that defaults to
`false` (absent = falsy). -/

/-- The slice of a `WebSocket` the server observes. -/
structure Socket where
  sid : Nat
  readyState : Nat
deriving Repr, DecidableEq

/-- `Participant` from `types.ts`. -/
structure Participant where
  id : String
  name : String
  socket : Socket
  roomId : String
  isModerator : Bool
  isMuted : Bool
  isVideoOff : Bool
  isHandRaised : Bool
  joinedAt : Nat
deriving Repr, DecidableEq

/-- `WaitingParticipant` from `types.ts`. -/
structure WaitingParticipant where
  id : String
  name : String
  socket : Socket
  requestedAt : Nat
deriving Repr, DecidableEq

/-- `Room` from `types.ts`. -/
structure Room where
  id : String
  participants : JMap String Participant
  waitingRoom : JMap String WaitingParticipant
  password : Option String
  isLocked : Bool
  hostId : Option String
  createdAt : Nat
  maxParticipants : Nat
  creatorToken : Option String := none
  isPreCreated : Bool := false
deriving Repr, DecidableEq

/-- `RoomConfig` from `types.ts` (the `requireApproval` field is never
read by the server and is omitted). -/
structure RoomConfig where
  password : Option String := none
  maxParticipants : Option Nat := none
deriving Repr, DecidableEq

/-- `Partial<Participant>`, the patch type taken by
`RoomManager.updateParticipant` (every field optional, as produced by
TypeScript's `Partial`). -/
structure ParticipantPatch where
  id : Option String := none
  name : Option String := none
  socket : Option Socket := none
  roomId : Option String := none
  isModerator : Option Bool := none
  isMuted : Option Bool := none
  isVideoOff : Option Bool := none
  isHandRaised : Option Bool := none
  joinedAt : Option Nat := none
deriving Repr, DecidableEq

/-- `Object.assign(participant, updates)`: every field present in the
patch overwrites the corresponding field of the record. -/
def applyPatch (p : Participant) (u : ParticipantPatch) : Participant where
  id := u.id.getD p.id
  name := u.name.getD p.name
  socket := u.socket.getD p.socket
  roomId := u.roomId.getD p.roomId
  isModerator := u.isModerator.getD p.isModerator
  isMuted := u.isMuted.getD p.isMuted
  isVideoOff := u.isVideoOff.getD p.isVideoOff
  isHandRaised := u.isHandRaised.getD p.isHandRaised
  joinedAt := u.joinedAt.getD p.joinedAt

/-! ## Room registry (`room-manager.ts`)

The persistence adjunct (`loadPreCreatedRooms` / `persistPreCreatedRooms`)
is disk I/O and is not modelled; the in-memory mutations are.  `Date.now()`
is threaded in as a `now` argument and `randomUUID()` results as explicit
string arguments. -/

/-- The in-memory state of `RoomManager`. -/
structure RoomManager where
  rooms : JMap String Room := []
  peakParticipants : Nat := 0
  defaultMaxParticipants : Nat := 8
  maxLatentRooms : Nat := 10
  latentRoomMaxAgeMs : Nat := 24 * 60 * 60 * 1000
deriving Repr, DecidableEq

namespace RoomManager

/-- A freshly constructed manager (empty persistence file). -/
def init : RoomManager := {}

/-- `getRoom`. -/
def getRoom (rm : RoomManager) (roomId : String) : Option Room :=
  JMap.get? rm.rooms roomId

/-- `createRoom`: unconditionally installs a fresh room under `roomId`. -/
def createRoom (rm : RoomManager) (roomId : String) (config : Option RoomConfig)
    (now : Nat) : RoomManager × Room :=
  let room : Room :=
    { id := roomId
      participants := []
      waitingRoom := []
      password := config.bind (fun c => c.password)
      isLocked := false
      hostId := none
      createdAt := now
      maxParticipants := (config.bind (fun c => c.maxParticipants)).getD rm.defaultMaxParticipants }
  ({ rm with rooms := JMap.set rm.rooms roomId room }, room)

/-- `getLatentRoomCount`: pre-created rooms with no participants. -/
def getLatentRoomCount (rm : RoomManager) : Nat :=
  (rm.rooms.filter (fun e => e.2.isPreCreated && e.2.participants.length == 0)).length

/-- `preCreateRoom`.  `genId` stands for the `randomUUID()`-derived id
used when no `roomId` option is supplied, and `token` for the minted
`creatorToken`. -/
def preCreateRoom (rm : RoomManager) (optRoomId : Option String)
    (optPassword : Option String) (optMax : Option Nat)
    (genId token : String) (now : Nat) : RoomManager × Option (String × String) :=
  if rm.getLatentRoomCount ≥ rm.maxLatentRooms then (rm, none)
  else
    let roomId := optRoomId.getD genId
    if JMap.hasKey rm.rooms roomId then (rm, none)
    else
      let room : Room :=
        { id := roomId
          participants := []
          waitingRoom := []
          password := optPassword
          isLocked := false
          hostId := none
          createdAt := now
          maxParticipants := optMax.getD rm.defaultMaxParticipants
          creatorToken := some token
          isPreCreated := true }
      ({ rm with rooms := JMap.set rm.rooms roomId room }, some (roomId, token))

/-- `validateCreatorToken`.  `!room?.creatorToken` is JS-falsy for a
missing room, a missing token, and the empty string. -/
def validateCreatorToken (rm : RoomManager) (roomId token : String) : Bool :=
  match rm.getRoom roomId with
  | none => false
  | some room =>
    match room.creatorToken with
    | none => false
    | some t => if t = "" then false else decide (t = token)

/-- `getOrCreateRoom`. -/
def getOrCreateRoom (rm : RoomManager) (roomId : String) (config : Option RoomConfig)
    (now : Nat) : RoomManager × Room :=
  match rm.getRoom roomId with
  | some existing => (rm, existing)
  | none => rm.createRoom roomId config now

/-- `validatePassword`.  `!room.password` is JS-falsy for both a missing
password and the empty string. -/
def validatePassword (rm : RoomManager) (roomId : String) (password : Option String) : Bool :=
  match rm.getRoom roomId with
  | none => true
  | some room =>
    match room.password with
    | none => true
    | some p => if p = "" then true else decide (password = some p)

/-- `addToWaitingRoom` (capacity check is against `participants`, not the
waiting map). -/
def addToWaitingRoom (rm : RoomManager) (roomId : String) (wp : WaitingParticipant)
    (now : Nat) : RoomManager × Bool :=
  let rr := rm.getOrCreateRoom roomId none now
  let rm1 := rr.1
  let room := rr.2
  if room.participants.length ≥ room.maxParticipants then (rm1, false)
  else
    let room1 := { room with waitingRoom := JMap.set room.waitingRoom wp.id wp }
    ({ rm1 with rooms := JMap.set rm1.rooms roomId room1 }, true)

/-- `admitFromWaitingRoom`: remove and return the waiting entry, if any. -/
def admitFromWaitingRoom (rm : RoomManager) (roomId participantId : String) :
    RoomManager × Option WaitingParticipant :=
  match rm.getRoom roomId with
  | none => (rm, none)
  | some room =>
    match JMap.get? room.waitingRoom participantId with
    | none => (rm, none)
    | some wp =>
      let room1 := { room with waitingRoom := JMap.del room.waitingRoom participantId }
      ({ rm with rooms := JMap.set rm.rooms roomId room1 }, some wp)

/-- `rejectFromWaitingRoom` (identical mutation to admit). -/
def rejectFromWaitingRoom (rm : RoomManager) (roomId participantId : String) :
    RoomManager × Option WaitingParticipant :=
  rm.admitFromWaitingRoom roomId participantId

/-- `getTotalParticipants`. -/
def getTotalParticipants (rm : RoomManager) : Nat :=
  rm.rooms.foldl (fun acc e => acc + e.2.participants.length) 0

/-- `addParticipant`.  The first participant of an (empty) room, or a
caller-flagged host, becomes host and is given the moderator bit before
insertion (the source mutates the passed object). -/
def addParticipant (rm : RoomManager) (roomId : String) (participant : Participant)
    (isHost : Bool) (now : Nat) : RoomManager × Bool :=
  let rr := rm.getOrCreateRoom roomId none now
  let rm1 := rr.1
  let room := rr.2
  if room.participants.length ≥ room.maxParticipants then (rm1, false)
  else
    let becomesHost := room.participants.length == 0 || isHost
    let p := if becomesHost then { participant with isModerator := true } else participant
    let room1 :=
      { room with
        hostId := if becomesHost then some p.id else room.hostId
        participants := JMap.set room.participants p.id p }
    let rm2 := { rm1 with rooms := JMap.set rm1.rooms roomId room1 }
    let total := rm2.getTotalParticipants
    ({ rm2 with peakParticipants := max rm2.peakParticipants total }, true)

/-- `removeParticipant`: delete, promote a new host if the host left and
others remain (first remaining insertion-order entry, whose record is
mutated in place), and delete an emptied ad-hoc room. -/
def removeParticipant (rm : RoomManager) (roomId participantId : String) : RoomManager :=
  match rm.getRoom roomId with
  | none => rm
  | some room =>
    let parts1 := JMap.del room.participants participantId
    let room1 := { room with participants := parts1 }
    let room2 :=
      if room.hostId = some participantId ∧ 0 < parts1.length then
        match parts1 with
        | [] => room1
        | e :: rest =>
          { room1 with
            hostId := some e.2.id
            participants := (e.1, { e.2 with isModerator := true }) :: rest }
      else room1
    if room2.participants.length = 0 ∧ room2.isPreCreated = false then
      { rm with rooms := JMap.del rm.rooms roomId }
    else
      { rm with rooms := JMap.set rm.rooms roomId room2 }

/-- `updateParticipant`: `Object.assign` the patch onto the stored record. -/
def updateParticipant (rm : RoomManager) (roomId participantId : String)
    (updates : ParticipantPatch) : RoomManager :=
  match rm.getRoom roomId with
  | none => rm
  | some room =>
    match JMap.get? room.participants participantId with
    | none => rm
    | some participant =>
      let room1 :=
        { room with
          participants := JMap.set room.participants participantId (applyPatch participant updates) }
      { rm with rooms := JMap.set rm.rooms roomId room1 }

/-- `lockRoom`. -/
def lockRoom (rm : RoomManager) (roomId : String) : RoomManager :=
  match rm.getRoom roomId with
  | none => rm
  | some room => { rm with rooms := JMap.set rm.rooms roomId { room with isLocked := true } }

/-- `unlockRoom`. -/
def unlockRoom (rm : RoomManager) (roomId : String) : RoomManager :=
  match rm.getRoom roomId with
  | none => rm
  | some room => { rm with rooms := JMap.set rm.rooms roomId { room with isLocked := false } }

/-- `isRoomLocked` (`room?.isLocked ?? false`). -/
def isRoomLocked (rm : RoomManager) (roomId : String) : Bool :=
  match rm.getRoom roomId with
  | none => false
  | some room => room.isLocked

/-- `getParticipants` (insertion-order values, `[]` for unknown room). -/
def getParticipants (rm : RoomManager) (roomId : String) : List Participant :=
  match rm.getRoom roomId with
  | none => []
  | some room => room.participants.map (fun e => e.2)

/-- `getWaitingParticipants`. -/
def getWaitingParticipants (rm : RoomManager) (roomId : String) : List WaitingParticipant :=
  match rm.getRoom roomId with
  | none => []
  | some room => room.waitingRoom.map (fun e => e.2)

/-- `getOtherParticipants`. -/
def getOtherParticipants (rm : RoomManager) (roomId excludeId : String) : List Participant :=
  (rm.getParticipants roomId).filter (fun p => decide (¬ p.id = excludeId))

/-- `isModerator` (`participant?.isModerator ?? false`). -/
def isModerator (rm : RoomManager) (roomId participantId : String) : Bool :=
  match rm.getRoom roomId with
  | none => false
  | some room =>
    match JMap.get? room.participants participantId with
    | none => false
    | some p => p.isModerator

/-- `cleanupAbandonedRooms`: evict empty rooms past their age limit
(latent limit for pre-created rooms, `maxAgeMs` otherwise). -/
def cleanupAbandonedRooms (rm : RoomManager) (maxAgeMs now : Nat) : RoomManager :=
  { rm with
    rooms := rm.rooms.filter (fun e =>
      0 < e.2.participants.length ∨
        now - e.2.createdAt ≤ (if e.2.isPreCreated then rm.latentRoomMaxAgeMs else maxAgeMs)) }

/-- `kickParticipant`: closing the target socket is I/O; the state effect
is `removeParticipant` when the target exists. -/
def kickParticipant (rm : RoomManager) (roomId participantId : String) :
    RoomManager × Option Participant :=
  match rm.getRoom roomId with
  | none => (rm, none)
  | some room =>
    match JMap.get? room.participants participantId with
    | none => (rm, none)
    | some participant => (rm.removeParticipant roomId participantId, some participant)

end RoomManager

/-! ## Registry operation sequences

The mutating `RoomManager` operations, reified so that properties can be
stated over arbitrary interleavings (the spec's "after any Registry
operation returns"). -/

/-- One mutating registry operation, with clock readings and minted
identifiers as explicit data. -/
inductive RegOp where
  | createRoom (roomId : String) (config : Option RoomConfig) (now : Nat)
  | preCreateRoom (optRoomId : Option String) (optPassword : Option String)
      (optMax : Option Nat) (genId token : String) (now : Nat)
  | getOrCreateRoom (roomId : String) (config : Option RoomConfig) (now : Nat)
  | addToWaitingRoom (roomId : String) (wp : WaitingParticipant) (now : Nat)
  | admitFromWaitingRoom (roomId participantId : String)
  | rejectFromWaitingRoom (roomId participantId : String)
  | addParticipant (roomId : String) (p : Participant) (isHost : Bool) (now : Nat)
  | removeParticipant (roomId participantId : String)
  | updateParticipant (roomId participantId : String) (updates : ParticipantPatch)
  | lockRoom (roomId : String)
  | unlockRoom (roomId : String)
  | kickParticipant (roomId participantId : String)
  | cleanupAbandonedRooms (maxAgeMs now : Nat)
deriving Repr, DecidableEq

/-- State effect of one registry operation. -/
def applyOp (rm : RoomManager) : RegOp → RoomManager
  | .createRoom roomId config now => (rm.createRoom roomId config now).1
  | .preCreateRoom optRoomId optPassword optMax genId token now =>
      (rm.preCreateRoom optRoomId optPassword optMax genId token now).1
  | .getOrCreateRoom roomId config now => (rm.getOrCreateRoom roomId config now).1
  | .addToWaitingRoom roomId wp now => (rm.addToWaitingRoom roomId wp now).1
  | .admitFromWaitingRoom roomId participantId => (rm.admitFromWaitingRoom roomId participantId).1
  | .rejectFromWaitingRoom roomId participantId => (rm.rejectFromWaitingRoom roomId participantId).1
  | .addParticipant roomId p isHost now => (rm.addParticipant roomId p isHost now).1
  | .removeParticipant roomId participantId => rm.removeParticipant roomId participantId
  | .updateParticipant roomId participantId updates =>
      rm.updateParticipant roomId participantId updates
  | .lockRoom roomId => rm.lockRoom roomId
  | .unlockRoom roomId => rm.unlockRoom roomId
  | .kickParticipant roomId participantId => (rm.kickParticipant roomId participantId).1
  | .cleanupAbandonedRooms maxAgeMs now => rm.cleanupAbandonedRooms maxAgeMs now

/-- A whole operation sequence. -/
def applyOps (rm : RoomManager) (ops : List RegOp) : RoomManager :=
  ops.foldl applyOp rm

/-- Spec invariant 1 for one room: `|participants| ≤ maxParticipants`. -/
def Room.capacityOk (room : Room) : Bool :=
  decide (room.participants.length ≤ room.maxParticipants)

/-- Spec invariant 1 for the whole registry. -/
def RoomManager.capacityOk (rm : RoomManager) : Bool :=
  rm.rooms.all (fun e => e.2.capacityOk)

namespace JMap

variable {K V : Type} [DecidableEq K]

theorem all_mem {m : JMap K V} {P : K × V → Bool} (h : m.all P = true)
    {e : K × V} (he : e ∈ m) : P e = true :=
  List.all_eq_true.mp h e he

theorem all_set {m : JMap K V} {P : K × V → Bool} {k : K} {v : V}
    (h : m.all P = true) (hv : P (k, v) = true) : (set m k v).all P = true := by
  rw [List.all_eq_true]
  intro e he
  rcases mem_set he with rfl | he
  · exact hv
  · exact all_mem h he

theorem all_del {m : JMap K V} {P : K × V → Bool} (h : m.all P = true) (k : K) :
    (del m k).all P = true := by
  rw [List.all_eq_true]
  intro e he
  exact all_mem h (mem_del he)

theorem all_filter {m : JMap K V} {P : K × V → Bool} (h : m.all P = true)
    (q : K × V → Bool) : (m.filter q).all P = true := by
  rw [List.all_eq_true]
  intro e he
  exact all_mem h (List.mem_of_mem_filter he)

theorem all_get? {m : JMap K V} {P : K × V → Bool} (h : m.all P = true)
    {k : K} {v : V} (hg : get? m k = some v) : P (k, v) = true :=
  all_mem h (get?_eq_some_mem hg)

theorem length_set_le (m : JMap K V) (k : K) (v : V) :
    (set m k v).length ≤ m.length + 1 := by
  rw [length_set]
  split <;> omega

theorem length_set_of_hasKey {m : JMap K V} {k : K} (v : V) (h : hasKey m k = true) :
    (set m k v).length = m.length := by
  rw [length_set, if_pos h]

end JMap

/-- `getOrCreateRoom` preserves the capacity invariant and returns a room
satisfying it. -/
theorem cap_getOrCreate (rm : RoomManager) (roomId : String) (config : Option RoomConfig)
    (now : Nat) (h : rm.capacityOk = true) :
    (rm.getOrCreateRoom roomId config now).1.capacityOk = true ∧
      Room.capacityOk (rm.getOrCreateRoom roomId config now).2 = true := by
  unfold RoomManager.getOrCreateRoom
  cases hg : rm.getRoom roomId with
  | some r =>
    refine ⟨h, ?_⟩
    have := JMap.all_get? (m := rm.rooms) h hg
    simpa using this
  | none =>
    constructor
    · simp only [RoomManager.createRoom, RoomManager.capacityOk]
      exact JMap.all_set h (by simp [Room.capacityOk])
    · simp [RoomManager.createRoom, Room.capacityOk]

/-- `removeParticipant` preserves the capacity invariant. -/
theorem cap_remove (rm : RoomManager) (roomId participantId : String)
    (h : rm.capacityOk = true) :
    (rm.removeParticipant roomId participantId).capacityOk = true := by
  simp only [RoomManager.removeParticipant]
  split
  · exact h
  · rename_i room hroom
    have hcap : Room.capacityOk room = true := by
      have := JMap.all_get? (m := rm.rooms) h hroom
      simpa using this
    simp only [Room.capacityOk, decide_eq_true_eq] at hcap
    have hdel := JMap.length_del_le room.participants participantId
    by_cases hcond : room.hostId = some participantId ∧
        0 < (JMap.del room.participants participantId).length
    · rw [if_pos hcond]
      cases hp : JMap.del room.participants participantId with
      | nil =>
        rw [hp] at hcond
        exact absurd hcond.2 (by simp)
      | cons e rest =>
        rw [hp] at hdel
        simp only [hp]
        split
        · simp only [RoomManager.capacityOk] at h ⊢
          exact JMap.all_del h roomId
        · simp only [RoomManager.capacityOk] at h ⊢
          refine JMap.all_set h ?_
          simp only [Room.capacityOk, decide_eq_true_eq, List.length_cons]
          simp only [List.length_cons] at hdel
          omega
    · rw [if_neg hcond]
      split
      · simp only [RoomManager.capacityOk] at h ⊢
        exact JMap.all_del h roomId
      · simp only [RoomManager.capacityOk] at h ⊢
        refine JMap.all_set h ?_
        simp only [Room.capacityOk, decide_eq_true_eq]
        omega

/-- Every single registry operation preserves the capacity invariant. -/
theorem cap_preserve (rm : RoomManager) (op : RegOp) (h : rm.capacityOk = true) :
    (applyOp rm op).capacityOk = true := by
  cases op with
  | createRoom roomId config now =>
    simp only [applyOp, RoomManager.createRoom, RoomManager.capacityOk] at h ⊢
    exact JMap.all_set h (by simp [Room.capacityOk])
  | preCreateRoom optRoomId optPassword optMax genId token now =>
    simp only [applyOp, RoomManager.preCreateRoom]
    split
    · exact h
    · split
      · exact h
      · simp only [RoomManager.capacityOk] at h ⊢
        exact JMap.all_set h (by simp [Room.capacityOk])
  | getOrCreateRoom roomId config now =>
    exact (cap_getOrCreate rm roomId config now h).1
  | addToWaitingRoom roomId wp now =>
    have hg := cap_getOrCreate rm roomId none now h
    simp only [applyOp, RoomManager.addToWaitingRoom]
    split
    · exact hg.1
    · simp only [RoomManager.capacityOk] at hg ⊢
      refine JMap.all_set hg.1 ?_
      simpa [Room.capacityOk] using hg.2
  | admitFromWaitingRoom roomId participantId =>
    simp only [applyOp, RoomManager.admitFromWaitingRoom]
    split
    · exact h
    · rename_i room hroom
      split
      · exact h
      · simp only [RoomManager.capacityOk] at h ⊢
        refine JMap.all_set h ?_
        have := JMap.all_get? (m := rm.rooms) h hroom
        simpa [Room.capacityOk] using this
  | rejectFromWaitingRoom roomId participantId =>
    simp only [applyOp, RoomManager.rejectFromWaitingRoom, RoomManager.admitFromWaitingRoom]
    split
    · exact h
    · rename_i room hroom
      split
      · exact h
      · simp only [RoomManager.capacityOk] at h ⊢
        refine JMap.all_set h ?_
        have := JMap.all_get? (m := rm.rooms) h hroom
        simpa [Room.capacityOk] using this
  | addParticipant roomId p isHost now =>
    have hg := cap_getOrCreate rm roomId none now h
    simp only [applyOp, RoomManager.addParticipant]
    split
    · exact hg.1
    · rename_i hnotfull
      simp only [RoomManager.capacityOk] at hg ⊢
      refine JMap.all_set hg.1 ?_
      simp only [Room.capacityOk, decide_eq_true_eq] at hnotfull ⊢
      have hle := JMap.length_set_le (rm.getOrCreateRoom roomId none now).2.participants
        (if ((rm.getOrCreateRoom roomId none now).2.participants.length == 0 || isHost) = true
          then { p with isModerator := true } else p).id
        (if ((rm.getOrCreateRoom roomId none now).2.participants.length == 0 || isHost) = true
          then { p with isModerator := true } else p)
      omega
  | removeParticipant roomId participantId =>
    exact cap_remove rm roomId participantId h
  | updateParticipant roomId participantId updates =>
    simp only [applyOp, RoomManager.updateParticipant]
    split
    · exact h
    · rename_i room hroom
      split
      · exact h
      · rename_i participant hpart
        have hcap : Room.capacityOk room = true := by
          have := JMap.all_get? (m := rm.rooms) h hroom
          simpa using this
        simp only [Room.capacityOk, decide_eq_true_eq] at hcap
        simp only [RoomManager.capacityOk] at h ⊢
        refine JMap.all_set h ?_
        simp only [Room.capacityOk, decide_eq_true_eq]
        rw [JMap.length_set_of_hasKey _ (JMap.hasKey_of_get?_eq_some hpart)]
        exact hcap
  | lockRoom roomId =>
    simp only [applyOp, RoomManager.lockRoom]
    split
    · exact h
    · rename_i room hroom
      have hcap := JMap.all_get? (m := rm.rooms) h hroom
      simp only [RoomManager.capacityOk] at h ⊢
      refine JMap.all_set h ?_
      simpa [Room.capacityOk] using hcap
  | unlockRoom roomId =>
    simp only [applyOp, RoomManager.unlockRoom]
    split
    · exact h
    · rename_i room hroom
      have hcap := JMap.all_get? (m := rm.rooms) h hroom
      simp only [RoomManager.capacityOk] at h ⊢
      refine JMap.all_set h ?_
      simpa [Room.capacityOk] using hcap
  | kickParticipant roomId participantId =>
    simp only [applyOp, RoomManager.kickParticipant]
    split
    · exact h
    · rename_i room hroom
      split
      · exact h
      · exact cap_remove rm roomId participantId h
  | cleanupAbandonedRooms maxAgeMs now =>
    simp only [applyOp, RoomManager.cleanupAbandonedRooms, RoomManager.capacityOk] at h ⊢
    exact JMap.all_filter h _

/-- Capacity is preserved along any operation sequence. -/
theorem capacityOk_applyOps (ops : List RegOp) (rm : RoomManager) (h : rm.capacityOk = true) :
    (applyOps rm ops).capacityOk = true := by
  induction ops generalizing rm with
  | nil => exact h
  | cons op rest ih =>
    simp only [applyOps, List.foldl_cons] at *
    exact ih (applyOp rm op) (cap_preserve rm op h)

/-! ## Host / moderator invariant (spec invariant 2) -/

/-- Spec invariant 2 for one room: if the room is non-empty, `hostId`
names a stored participant whose record has `id = hostId` and
`isModerator = true`. -/
def Room.hostOk (room : Room) : Bool :=
  decide (room.participants = []) ||
    (match room.hostId with
     | none => false
     | some h =>
       match JMap.get? room.participants h with
       | none => false
       | some p => decide (p.id = h) && p.isModerator)

/-- Participant records are stored under their own `id` (true of every
state the server builds, since `addParticipant` inserts at `p.id`). -/
def Room.keysOk (room : Room) : Bool :=
  room.participants.all (fun e => decide (e.2.id = e.1))

/-- Registry-wide host invariant. -/
def RoomManager.hostOk (rm : RoomManager) : Bool :=
  rm.rooms.all (fun e => e.2.hostOk)

/-- Registry-wide key consistency. -/
def RoomManager.keysOk (rm : RoomManager) : Bool :=
  rm.rooms.all (fun e => e.2.keysOk)

theorem hostOk_iff (room : Room) :
    room.hostOk = true ↔
      room.participants = [] ∨
        ∃ h p, room.hostId = some h ∧ JMap.get? room.participants h = some p ∧
          p.id = h ∧ p.isModerator = true := by
  unfold Room.hostOk
  cases hh : room.hostId with
  | none =>
    simp [hh]
  | some h0 =>
    cases hp : JMap.get? room.participants h0 with
    | none =>
      simp only [hp, Bool.or_eq_true, decide_eq_true_eq]
      constructor
      · rintro (he | hfalse)
        · exact Or.inl he
        · cases hfalse
      · rintro (he | ⟨h1, p1, hh1, hp1, _, _⟩)
        · exact Or.inl he
        · rw [Option.some.injEq] at hh1
          rw [← hh1] at hp1
          rw [hp1] at hp
          cases hp
    | some p0 =>
      simp only [hp, Bool.or_eq_true, decide_eq_true_eq, Bool.and_eq_true]
      constructor
      · rintro (he | ⟨hid, hmod⟩)
        · exact Or.inl he
        · exact Or.inr ⟨h0, p0, rfl, hp, hid, hmod⟩
      · rintro (he | ⟨h1, p1, hh1, hp1, hid1, hmod1⟩)
        · exact Or.inl he
        · rw [Option.some.injEq] at hh1
          subst hh1
          rw [hp1] at hp
          cases hp
          exact Or.inr ⟨hid1, hmod1⟩

theorem keysOk_mem {room : Room} (h : room.keysOk = true) {e : String × Participant}
    (he : e ∈ room.participants) : e.2.id = e.1 := by
  have := List.all_eq_true.mp h e he
  simpa using this

/-- Freshness of a participant id for `addParticipant`, modelling that
the server mints participant ids with `randomUUID()`: the id is not
already a key of the target room's participant map. -/
def freshFor (rm : RoomManager) (roomId pid : String) : Bool :=
  match rm.getRoom roomId with
  | none => true
  | some room => ! JMap.hasKey room.participants pid

/-- The registry operations as the server actually invokes them:
`addParticipant` receives a freshly minted id, and `updateParticipant`
patches never target `id` and never clear the moderator bit (the
dispatcher only patches `isMuted`, `isVideoOff`, `isHandRaised`, and
`isModerator := true`). -/
def RegOp.wf (rm : RoomManager) : RegOp → Bool
  | .addParticipant roomId p _ _ => freshFor rm roomId p.id
  | .updateParticipant _ _ updates =>
      decide (updates.id = none) && decide (¬ updates.isModerator = some false)
  | _ => true

/-- Well-formedness of a whole operation sequence. -/
def wfSeq (rm : RoomManager) : List RegOp → Bool
  | [] => true
  | op :: ops => RegOp.wf rm op && wfSeq (applyOp rm op) ops

/-- `removeParticipant` preserves key consistency and the host invariant:
on host departure the first remaining participant is promoted and gains
the moderator bit; an emptied ad-hoc room is deleted. -/
theorem hostinv_remove (rm : RoomManager) (roomId participantId : String)
    (hk : rm.keysOk = true) (hh : rm.hostOk = true) :
    (rm.removeParticipant roomId participantId).keysOk = true ∧
      (rm.removeParticipant roomId participantId).hostOk = true := by
  simp only [RoomManager.removeParticipant]
  split
  · exact ⟨hk, hh⟩
  · rename_i room hroom
    have hkroom : room.keysOk = true := by
      have := JMap.all_get? (m := rm.rooms) hk hroom
      simpa using this
    have hhroom : room.hostOk = true := by
      have := JMap.all_get? (m := rm.rooms) hh hroom
      simpa using this
    by_cases hcond : room.hostId = some participantId ∧
        0 < (JMap.del room.participants participantId).length
    · rw [if_pos hcond]
      cases hp : JMap.del room.participants participantId with
      | nil =>
        rw [hp] at hcond
        exact absurd hcond.2 (by simp)
      | cons e rest =>
        simp only [hp]
        rw [if_neg (by simp)]
        have hein : e ∈ JMap.del room.participants participantId := by
          rw [hp]; exact List.mem_cons_self e rest
        have he1 : e.2.id = e.1 := keysOk_mem hkroom (JMap.mem_del hein)
        constructor
        · simp only [RoomManager.keysOk] at hk ⊢
          refine JMap.all_set hk ?_
          simp only [Room.keysOk]
          rw [List.all_eq_true]
          intro x hx
          rcases List.mem_cons.mp hx with rfl | hx
          · simpa using he1
          · have hxm : x ∈ JMap.del room.participants participantId := by
              rw [hp]; exact List.mem_cons_of_mem _ hx
            simpa using keysOk_mem hkroom (JMap.mem_del hxm)
        · simp only [RoomManager.hostOk] at hh ⊢
          refine JMap.all_set hh ?_
          refine (hostOk_iff _).mpr (Or.inr ⟨e.2.id, { e.2 with isModerator := true }, rfl, ?_, by simp, by simp⟩)
          rw [JMap.get?_cons, if_pos (show (e.1, { e.2 with isModerator := true }).1 = e.2.id from he1.symm)]
    · rw [if_neg hcond]
      split
      · refine ⟨?_, ?_⟩
        · simp only [RoomManager.keysOk] at hk ⊢
          exact JMap.all_del hk roomId
        · simp only [RoomManager.hostOk] at hh ⊢
          exact JMap.all_del hh roomId
      · rename_i houter
        constructor
        · simp only [RoomManager.keysOk] at hk ⊢
          refine JMap.all_set hk ?_
          simp only [Room.keysOk]
          rw [List.all_eq_true]
          intro x hx
          simpa using keysOk_mem hkroom (JMap.mem_del hx)
        · simp only [RoomManager.hostOk] at hh ⊢
          refine JMap.all_set hh ?_
          refine (hostOk_iff _).mpr ?_
          cases hdelnil : JMap.del room.participants participantId with
          | nil => exact Or.inl (by simpa using hdelnil)
          | cons e rest =>
            have hpos : 0 < (JMap.del room.participants participantId).length := by
              rw [hdelnil]; simp
            have hhost : ¬ room.hostId = some participantId := by
              rcases not_and_or.mp hcond with h1 | h2
              · exact h1
              · exact absurd hpos h2
            have hroomne : ¬ room.participants = [] := by
              intro hnil
              rw [hnil, JMap.del_nil] at hdelnil
              cases hdelnil
            rcases (hostOk_iff room).mp hhroom with hnil | ⟨h0, q, hh0, hq, hqid, hqmod⟩
            · exact absurd hnil hroomne
            · refine Or.inr ⟨h0, q, hh0, ?_, hqid, hqmod⟩
              have hne0 : ¬ h0 = participantId := by
                intro hc
                rw [hc] at hh0
                exact hhost hh0
              rw [show ((roomId,
                  { room with participants := e :: rest }) : String × Room).2.participants
                  = e :: rest from rfl, ← hdelnil, JMap.get?_del, if_neg hne0]
              exact hq

/-- `admitFromWaitingRoom` (and hence `rejectFromWaitingRoom`) touch only
the waiting map and preserve both invariants. -/
theorem hostinv_admit (rm : RoomManager) (roomId participantId : String)
    (hk : rm.keysOk = true) (hh : rm.hostOk = true) :
    (rm.admitFromWaitingRoom roomId participantId).1.keysOk = true ∧
      (rm.admitFromWaitingRoom roomId participantId).1.hostOk = true := by
  simp only [RoomManager.admitFromWaitingRoom]
  split
  · exact ⟨hk, hh⟩
  · rename_i room hroom
    split
    · exact ⟨hk, hh⟩
    · have hkroom : room.keysOk = true := by
        have := JMap.all_get? (m := rm.rooms) hk hroom
        simpa using this
      have hhroom : room.hostOk = true := by
        have := JMap.all_get? (m := rm.rooms) hh hroom
        simpa using this
      refine ⟨?_, ?_⟩
      · simp only [RoomManager.keysOk] at hk ⊢
        exact JMap.all_set hk hkroom
      · simp only [RoomManager.hostOk] at hh ⊢
        exact JMap.all_set hh hhroom

/-- Key consistency and the host invariant are preserved by every
well-formed registry operation. -/
theorem hostinv_preserve (rm : RoomManager) (op : RegOp) (hwf : RegOp.wf rm op = true)
    (hk : rm.keysOk = true) (hh : rm.hostOk = true) :
    (applyOp rm op).keysOk = true ∧ (applyOp rm op).hostOk = true := by
  cases op with
  | createRoom roomId config now =>
    simp only [applyOp, RoomManager.createRoom]
    refine ⟨?_, ?_⟩
    · simp only [RoomManager.keysOk] at hk ⊢
      exact JMap.all_set hk (by rfl)
    · simp only [RoomManager.hostOk] at hh ⊢
      exact JMap.all_set hh (by rfl)
  | preCreateRoom optRoomId optPassword optMax genId token now =>
    simp only [applyOp, RoomManager.preCreateRoom]
    split
    · exact ⟨hk, hh⟩
    · split
      · exact ⟨hk, hh⟩
      · refine ⟨?_, ?_⟩
        · simp only [RoomManager.keysOk] at hk ⊢
          exact JMap.all_set hk (by rfl)
        · simp only [RoomManager.hostOk] at hh ⊢
          exact JMap.all_set hh (by rfl)
  | getOrCreateRoom roomId config now =>
    simp only [applyOp, RoomManager.getOrCreateRoom]
    cases hg : rm.getRoom roomId with
    | some room => exact ⟨hk, hh⟩
    | none =>
      simp only [RoomManager.createRoom]
      refine ⟨?_, ?_⟩
      · simp only [RoomManager.keysOk] at hk ⊢
        exact JMap.all_set hk (by rfl)
      · simp only [RoomManager.hostOk] at hh ⊢
        exact JMap.all_set hh (by rfl)
  | addToWaitingRoom roomId wp now =>
    simp only [applyOp, RoomManager.addToWaitingRoom, RoomManager.getOrCreateRoom]
    cases hg : rm.getRoom roomId with
    | some room =>
      have hkroom : room.keysOk = true := by
        have := JMap.all_get? (m := rm.rooms) hk hg
        simpa using this
      have hhroom : room.hostOk = true := by
        have := JMap.all_get? (m := rm.rooms) hh hg
        simpa using this
      split
      · exact ⟨hk, hh⟩
      · refine ⟨?_, ?_⟩
        · simp only [RoomManager.keysOk] at hk ⊢
          exact JMap.all_set hk hkroom
        · simp only [RoomManager.hostOk] at hh ⊢
          exact JMap.all_set hh hhroom
    | none =>
      simp only [RoomManager.createRoom]
      split
      · refine ⟨?_, ?_⟩
        · simp only [RoomManager.keysOk] at hk ⊢
          exact JMap.all_set hk (by rfl)
        · simp only [RoomManager.hostOk] at hh ⊢
          exact JMap.all_set hh (by rfl)
      · refine ⟨?_, ?_⟩
        · simp only [RoomManager.keysOk] at hk ⊢
          exact JMap.all_set (JMap.all_set hk (by rfl)) (by rfl)
        · simp only [RoomManager.hostOk] at hh ⊢
          exact JMap.all_set (JMap.all_set hh (by rfl)) (by rfl)
  | admitFromWaitingRoom roomId participantId =>
    exact hostinv_admit rm roomId participantId hk hh
  | rejectFromWaitingRoom roomId participantId =>
    exact hostinv_admit rm roomId participantId hk hh
  | addParticipant roomId p isHost now =>
    cases hg : rm.getRoom roomId with
    | none =>
      simp only [applyOp, RoomManager.addParticipant, RoomManager.getOrCreateRoom, hg,
        RoomManager.createRoom]
      split
      · refine ⟨?_, ?_⟩
        · simp only [RoomManager.keysOk] at hk ⊢
          exact JMap.all_set hk (by rfl)
        · simp only [RoomManager.hostOk] at hh ⊢
          exact JMap.all_set hh (by rfl)
      · refine ⟨?_, ?_⟩
        · simp only [RoomManager.keysOk] at hk ⊢
          refine JMap.all_set (JMap.all_set hk (by rfl)) ?_
          simp [Room.keysOk, JMap.set_nil]
        · simp only [RoomManager.hostOk] at hh ⊢
          refine JMap.all_set (JMap.all_set hh (by rfl)) ?_
          refine (hostOk_iff _).mpr (Or.inr ?_)
          refine ⟨(if ((([] : JMap String Participant).length == 0) || isHost) = true
              then { p with isModerator := true } else p).id, _, ?_, ?_, rfl, ?_⟩
          · rfl
          · rw [JMap.set_nil, JMap.get?_cons, if_pos rfl]
          · simp
    | some room =>
      simp only [applyOp, RoomManager.addParticipant, RoomManager.getOrCreateRoom, hg]
      have hkroom : room.keysOk = true := by
        have := JMap.all_get? (m := rm.rooms) hk hg
        simpa using this
      have hhroom : room.hostOk = true := by
        have := JMap.all_get? (m := rm.rooms) hh hg
        simpa using this
      have hfresh : JMap.hasKey room.participants p.id = false := by
        simp only [RegOp.wf, freshFor, hg] at hwf
        simpa using hwf
      split
      · exact ⟨hk, hh⟩
      · rename_i hfull
        by_cases hbh : ((room.participants.length == 0) || isHost) = true
        · rw [if_pos hbh, if_pos hbh]
          refine ⟨?_, ?_⟩
          · simp only [RoomManager.keysOk] at hk ⊢
            refine JMap.all_set hk ?_
            simp only [Room.keysOk]
            rw [List.all_eq_true]
            intro x hx
            rcases JMap.mem_set hx with rfl | hx
            · simp
            · simpa using keysOk_mem hkroom hx
          · simp only [RoomManager.hostOk] at hh ⊢
            refine JMap.all_set hh ?_
            refine (hostOk_iff _).mpr (Or.inr
              ⟨({ p with isModerator := true } : Participant).id,
               ({ p with isModerator := true } : Participant), rfl, ?_, rfl, rfl⟩)
            rw [JMap.get?_set, if_pos rfl]
        · rw [if_neg hbh, if_neg hbh]
          have hne : ¬ room.participants = [] := by
            intro hnil
            rw [hnil] at hbh
            simp at hbh
          refine ⟨?_, ?_⟩
          · simp only [RoomManager.keysOk] at hk ⊢
            refine JMap.all_set hk ?_
            simp only [Room.keysOk]
            rw [List.all_eq_true]
            intro x hx
            rcases JMap.mem_set hx with rfl | hx
            · simp
            · simpa using keysOk_mem hkroom hx
          · simp only [RoomManager.hostOk] at hh ⊢
            refine JMap.all_set hh ?_
            refine (hostOk_iff _).mpr ?_
            rcases (hostOk_iff room).mp hhroom with hnil | ⟨h0, q, hh0, hq, hqid, hqmod⟩
            · exact absurd hnil hne
            · refine Or.inr ⟨h0, q, hh0, ?_, hqid, hqmod⟩
              have hne0 : ¬ h0 = p.id := by
                intro hc
                have := JMap.hasKey_of_get?_eq_some hq
                rw [hc, hfresh] at this
                cases this
              rw [JMap.get?_set, if_neg hne0]
              exact hq
  | removeParticipant roomId participantId =>
    exact hostinv_remove rm roomId participantId hk hh
  | updateParticipant roomId participantId updates =>
    simp only [applyOp, RoomManager.updateParticipant]
    split
    · exact ⟨hk, hh⟩
    · rename_i room hroom
      split
      · exact ⟨hk, hh⟩
      · rename_i participant hpart
        have hkroom : room.keysOk = true := by
          have := JMap.all_get? (m := rm.rooms) hk hroom
          simpa using this
        have hhroom : room.hostOk = true := by
          have := JMap.all_get? (m := rm.rooms) hh hroom
          simpa using this
        simp only [RegOp.wf, Bool.and_eq_true, decide_eq_true_eq] at hwf
        obtain ⟨hid, hmod⟩ := hwf
        have hpid : participant.id = participantId :=
          keysOk_mem hkroom (JMap.get?_eq_some_mem hpart)
        have hmid : (applyPatch participant updates).id = participant.id := by
          simp [applyPatch, hid]
        refine ⟨?_, ?_⟩
        · simp only [RoomManager.keysOk] at hk ⊢
          refine JMap.all_set hk ?_
          simp only [Room.keysOk]
          rw [List.all_eq_true]
          intro x hx
          rcases JMap.mem_set hx with rfl | hx
          · have hgoal : (applyPatch participant updates).id = participantId := by
              rw [hmid]; exact hpid
            simpa using hgoal
          · simpa using keysOk_mem hkroom hx
        · simp only [RoomManager.hostOk] at hh ⊢
          refine JMap.all_set hh ?_
          refine (hostOk_iff _).mpr ?_
          have hne : ¬ room.participants = [] := by
            intro hnil
            rw [hnil, JMap.get?_nil] at hpart
            cases hpart
          rcases (hostOk_iff room).mp hhroom with hnil | ⟨h0, q, hh0, hq, hqid, hqmod⟩
          · exact absurd hnil hne
          · by_cases hcase : h0 = participantId
            · subst hcase
              rw [hq] at hpart
              injection hpart with heq
              refine Or.inr ⟨h0, applyPatch participant updates, hh0, ?_, ?_, ?_⟩
              · rw [JMap.get?_set, if_pos rfl]
              · rw [hmid, hpid]
              · have hpm : participant.isModerator = true := by
                  rw [← heq]; exact hqmod
                cases hu : updates.isModerator with
                | none => simp [applyPatch, hu, hpm]
                | some b =>
                  cases b with
                  | false => exact absurd hu hmod
                  | true => simp [applyPatch, hu]
            · refine Or.inr ⟨h0, q, hh0, ?_, hqid, hqmod⟩
              rw [JMap.get?_set, if_neg hcase]
              exact hq
  | lockRoom roomId =>
    simp only [applyOp, RoomManager.lockRoom]
    split
    · exact ⟨hk, hh⟩
    · rename_i room hroom
      have hkroom : room.keysOk = true := by
        have := JMap.all_get? (m := rm.rooms) hk hroom
        simpa using this
      have hhroom : room.hostOk = true := by
        have := JMap.all_get? (m := rm.rooms) hh hroom
        simpa using this
      refine ⟨?_, ?_⟩
      · simp only [RoomManager.keysOk] at hk ⊢
        exact JMap.all_set hk hkroom
      · simp only [RoomManager.hostOk] at hh ⊢
        exact JMap.all_set hh hhroom
  | unlockRoom roomId =>
    simp only [applyOp, RoomManager.unlockRoom]
    split
    · exact ⟨hk, hh⟩
    · rename_i room hroom
      have hkroom : room.keysOk = true := by
        have := JMap.all_get? (m := rm.rooms) hk hroom
        simpa using this
      have hhroom : room.hostOk = true := by
        have := JMap.all_get? (m := rm.rooms) hh hroom
        simpa using this
      refine ⟨?_, ?_⟩
      · simp only [RoomManager.keysOk] at hk ⊢
        exact JMap.all_set hk hkroom
      · simp only [RoomManager.hostOk] at hh ⊢
        exact JMap.all_set hh hhroom
  | kickParticipant roomId participantId =>
    simp only [applyOp, RoomManager.kickParticipant]
    split
    · exact ⟨hk, hh⟩
    · split
      · exact ⟨hk, hh⟩
      · exact hostinv_remove rm roomId participantId hk hh
  | cleanupAbandonedRooms maxAgeMs now =>
    simp only [applyOp, RoomManager.cleanupAbandonedRooms]
    refine ⟨?_, ?_⟩
    · simp only [RoomManager.keysOk] at hk ⊢
      exact JMap.all_filter hk _
    · simp only [RoomManager.hostOk] at hh ⊢
      exact JMap.all_filter hh _

/-- Key consistency and the host invariant along a well-formed sequence. -/
theorem hostinv_applyOps (ops : List RegOp) (rm : RoomManager) (hwf : wfSeq rm ops = true)
    (hk : rm.keysOk = true) (hh : rm.hostOk = true) :
    (applyOps rm ops).keysOk = true ∧ (applyOps rm ops).hostOk = true := by
  induction ops generalizing rm with
  | nil => exact ⟨hk, hh⟩
  | cons op rest ih =>
    simp only [wfSeq, Bool.and_eq_true] at hwf
    simp only [applyOps, List.foldl_cons]
    have hp := hostinv_preserve rm op hwf.1 hk hh
    have := ih (applyOp rm op) hwf.2 hp.1 hp.2
    simpa [applyOps] using this

/-! ## No-ghost-room invariant (spec invariant 5) -/

/-- Spec invariant 5 for one room: an ad-hoc room has participants. -/
def Room.ghostOk (room : Room) : Bool :=
  room.isPreCreated || decide (0 < room.participants.length)

/-- Registry-wide no-ghost-room invariant. -/
def RoomManager.ghostFree (rm : RoomManager) : Bool :=
  rm.rooms.all (fun e => e.2.ghostOk)

/-- Operations that never leave an empty ad-hoc room behind: everything
except a bare `createRoom`, and `getOrCreateRoom` / `addToWaitingRoom`
on a room id that is not already in the registry. -/
def RegOp.ghostSafe (rm : RoomManager) : RegOp → Bool
  | .createRoom _ _ _ => false
  | .getOrCreateRoom roomId _ _ => JMap.hasKey rm.rooms roomId
  | .addToWaitingRoom roomId _ _ => JMap.hasKey rm.rooms roomId
  | _ => true

/-- Ghost-safety of a whole operation sequence. -/
def ghostSafeSeq (rm : RoomManager) : List RegOp → Bool
  | [] => true
  | op :: ops => RegOp.ghostSafe rm op && ghostSafeSeq (applyOp rm op) ops

namespace JMap

variable {K V : Type} [DecidableEq K]

theorem set_set (m : JMap K V) (k : K) (v w : V) :
    set (set m k v) k w = set m k w := by
  induction m with
  | nil => simp [set]
  | cons e rest ih =>
    by_cases he : e.1 = k
    · rw [set_cons, if_pos he, set_cons, set_cons, if_pos he]
      simp
    · rw [set_cons, if_neg he, set_cons, if_neg he, set_cons, if_neg he, ih]

theorem length_set_pos (m : JMap K V) (k : K) (v : V) : 0 < (set m k v).length :=
  List.length_pos.mpr (set_ne_nil m k v)

theorem get?_isSome_of_hasKey {m : JMap K V} {k : K} (h : hasKey m k = true) :
    (get? m k).isSome = true := by
  induction m with
  | nil => rw [hasKey_nil] at h; cases h
  | cons e rest ih =>
    rw [hasKey_cons] at h
    rw [get?_cons]
    by_cases he : e.1 = k
    · simp [he]
    · simp [he] at h
      rw [if_neg he]
      exact ih h

end JMap

/-- Registry operations never change the configured default capacity. -/
theorem applyOp_defaultMax (rm : RoomManager) (op : RegOp) :
    (applyOp rm op).defaultMaxParticipants = rm.defaultMaxParticipants := by
  cases op <;>
    simp only [applyOp, RoomManager.createRoom, RoomManager.preCreateRoom,
      RoomManager.getOrCreateRoom, RoomManager.addToWaitingRoom,
      RoomManager.admitFromWaitingRoom, RoomManager.rejectFromWaitingRoom,
      RoomManager.addParticipant, RoomManager.removeParticipant,
      RoomManager.updateParticipant, RoomManager.lockRoom, RoomManager.unlockRoom,
      RoomManager.kickParticipant, RoomManager.cleanupAbandonedRooms] <;>
    (repeat' split) <;> rfl

/-- `removeParticipant` preserves the no-ghost invariant (an emptied
ad-hoc room is deleted on the spot). -/
theorem ghost_remove (rm : RoomManager) (roomId participantId : String)
    (hg : rm.ghostFree = true) :
    (rm.removeParticipant roomId participantId).ghostFree = true := by
  simp only [RoomManager.removeParticipant]
  split
  · exact hg
  · rename_i room hroom
    by_cases hcond : room.hostId = some participantId ∧
        0 < (JMap.del room.participants participantId).length
    · rw [if_pos hcond]
      cases hp : JMap.del room.participants participantId with
      | nil =>
        rw [hp] at hcond
        exact absurd hcond.2 (by simp)
      | cons e rest =>
        simp only [hp]
        rw [if_neg (by simp)]
        simp only [RoomManager.ghostFree] at hg ⊢
        refine JMap.all_set hg ?_
        simp [Room.ghostOk]
    · rw [if_neg hcond]
      split
      · simp only [RoomManager.ghostFree] at hg ⊢
        exact JMap.all_del hg roomId
      · rename_i houter
        simp only [RoomManager.ghostFree] at hg ⊢
        refine JMap.all_set hg ?_
        simp only [Room.ghostOk]
        rcases not_and_or.mp houter with h1 | h2
        · simp only [Bool.or_eq_true, decide_eq_true_eq]
          exact Or.inr (Nat.pos_of_ne_zero h1)
        · simp only [Bool.not_eq_false] at h2
          simp [h2]

/-- Every ghost-safe registry operation preserves the no-ghost invariant
(provided the configured default capacity is positive, as it is for the
source's constant `8`). -/
theorem ghost_preserve (rm : RoomManager) (op : RegOp)
    (hsafe : RegOp.ghostSafe rm op = true) (hd : 0 < rm.defaultMaxParticipants)
    (hg : rm.ghostFree = true) : (applyOp rm op).ghostFree = true := by
  cases op with
  | createRoom roomId config now =>
    rw [RegOp.ghostSafe] at hsafe
    cases hsafe
  | preCreateRoom optRoomId optPassword optMax genId token now =>
    simp only [applyOp, RoomManager.preCreateRoom]
    split
    · exact hg
    · split
      · exact hg
      · simp only [RoomManager.ghostFree] at hg ⊢
        exact JMap.all_set hg (by rfl)
  | getOrCreateRoom roomId config now =>
    simp only [RegOp.ghostSafe] at hsafe
    have := JMap.get?_isSome_of_hasKey hsafe
    simp only [applyOp, RoomManager.getOrCreateRoom, RoomManager.getRoom]
    cases hget : JMap.get? rm.rooms roomId with
    | none => rw [hget] at this; cases this
    | some room => exact hg
  | addToWaitingRoom roomId wp now =>
    simp only [RegOp.ghostSafe] at hsafe
    have hsome := JMap.get?_isSome_of_hasKey hsafe
    cases hget : rm.getRoom roomId with
    | none =>
      rw [RoomManager.getRoom] at hget
      rw [hget] at hsome
      cases hsome
    | some room =>
      simp only [applyOp, RoomManager.addToWaitingRoom, RoomManager.getOrCreateRoom, hget]
      have hok : room.ghostOk = true := by
        have := JMap.all_get? (m := rm.rooms) hg hget
        simpa using this
      split
      · exact hg
      · simp only [RoomManager.ghostFree] at hg ⊢
        exact JMap.all_set hg hok
  | admitFromWaitingRoom roomId participantId =>
    simp only [applyOp, RoomManager.admitFromWaitingRoom]
    split
    · exact hg
    · rename_i room hroom
      split
      · exact hg
      · have hok : room.ghostOk = true := by
          have := JMap.all_get? (m := rm.rooms) hg hroom
          simpa using this
        simp only [RoomManager.ghostFree] at hg ⊢
        exact JMap.all_set hg hok
  | rejectFromWaitingRoom roomId participantId =>
    simp only [applyOp, RoomManager.rejectFromWaitingRoom, RoomManager.admitFromWaitingRoom]
    split
    · exact hg
    · rename_i room hroom
      split
      · exact hg
      · have hok : room.ghostOk = true := by
          have := JMap.all_get? (m := rm.rooms) hg hroom
          simpa using this
        simp only [RoomManager.ghostFree] at hg ⊢
        exact JMap.all_set hg hok
  | addParticipant roomId p isHost now =>
    cases hget : rm.getRoom roomId with
    | none =>
      simp only [applyOp, RoomManager.addParticipant, RoomManager.getOrCreateRoom, hget,
        RoomManager.createRoom]
      rw [if_neg (by simpa using Nat.not_le_of_lt hd)]
      simp only [RoomManager.ghostFree]
      rw [JMap.set_set]
      refine JMap.all_set hg ?_
      simp only [Room.ghostOk, JMap.set_nil]
      simp
    | some room =>
      simp only [applyOp, RoomManager.addParticipant, RoomManager.getOrCreateRoom, hget]
      split
      · exact hg
      · simp only [RoomManager.ghostFree] at hg ⊢
        refine JMap.all_set hg ?_
        simp only [Room.ghostOk, Bool.or_eq_true, decide_eq_true_eq]
        refine Or.inr ?_
        exact JMap.length_set_pos _ _ _
  | removeParticipant roomId participantId =>
    exact ghost_remove rm roomId participantId hg
  | updateParticipant roomId participantId updates =>
    simp only [applyOp, RoomManager.updateParticipant]
    split
    · exact hg
    · rename_i room hroom
      split
      · exact hg
      · rename_i participant hpart
        have hok : room.ghostOk = true := by
          have := JMap.all_get? (m := rm.rooms) hg hroom
          simpa using this
        simp only [RoomManager.ghostFree] at hg ⊢
        refine JMap.all_set hg ?_
        simp only [Room.ghostOk] at hok ⊢
        rwa [JMap.length_set_of_hasKey _ (JMap.hasKey_of_get?_eq_some hpart)]
  | lockRoom roomId =>
    simp only [applyOp, RoomManager.lockRoom]
    split
    · exact hg
    · rename_i room hroom
      have hok : room.ghostOk = true := by
        have := JMap.all_get? (m := rm.rooms) hg hroom
        simpa using this
      simp only [RoomManager.ghostFree] at hg ⊢
      exact JMap.all_set hg hok
  | unlockRoom roomId =>
    simp only [applyOp, RoomManager.unlockRoom]
    split
    · exact hg
    · rename_i room hroom
      have hok : room.ghostOk = true := by
        have := JMap.all_get? (m := rm.rooms) hg hroom
        simpa using this
      simp only [RoomManager.ghostFree] at hg ⊢
      exact JMap.all_set hg hok
  | kickParticipant roomId participantId =>
    simp only [applyOp, RoomManager.kickParticipant]
    split
    · exact hg
    · split
      · exact hg
      · exact ghost_remove rm roomId participantId hg
  | cleanupAbandonedRooms maxAgeMs now =>
    simp only [applyOp, RoomManager.cleanupAbandonedRooms, RoomManager.ghostFree] at hg ⊢
    exact JMap.all_filter hg _

/-- The no-ghost invariant along a ghost-safe sequence. -/
theorem ghost_applyOps (ops : List RegOp) (rm : RoomManager)
    (hsafe : ghostSafeSeq rm ops = true) (hd : 0 < rm.defaultMaxParticipants)
    (hg : rm.ghostFree = true) : (applyOps rm ops).ghostFree = true := by
  induction ops generalizing rm with
  | nil => exact hg
  | cons op rest ih =>
    simp only [ghostSafeSeq, Bool.and_eq_true] at hsafe
    have hstep := ghost_preserve rm op hsafe.1 hd hg
    have hd2 : 0 < (applyOp rm op).defaultMaxParticipants := by
      rw [applyOp_defaultMax]; exact hd
    have := ih (applyOp rm op) hsafe.2 hd2 hstep
    simpa [applyOps] using this

/-! ## Concrete fixtures used by witnesses and counterexamples -/

/-- A demo participant. -/
def aliceP : Participant :=
  { id := "alice", name := "Alice", socket := { sid := 1, readyState := 1 }, roomId := "R"
    isModerator := false, isMuted := false, isVideoOff := false, isHandRaised := false
    joinedAt := 0 }

/-- A second demo participant. -/
def bobP : Participant :=
  { id := "bob", name := "Bob", socket := { sid := 2, readyState := 1 }, roomId := "R"
    isModerator := false, isMuted := false, isVideoOff := false, isHandRaised := false
    joinedAt := 1 }

/-- A demo sequence: two joins followed by the host's departure. -/
def demoOps : List RegOp :=
  [RegOp.addParticipant "R" aliceP false 0,
   RegOp.addParticipant "R" bobP false 1,
   RegOp.removeParticipant "R" "alice"]

/-- A one-room registry fixture. -/
def roomW : Room :=
  { id := "R", participants := [("alice", aliceP)], waitingRoom := [], password := none
    isLocked := false, hostId := some "alice", createdAt := 0, maxParticipants := 8 }

/-- Registry fixture holding `roomW`. -/
def rmW : RoomManager := { rooms := [("R", roomW)] }

/-! ## Claim theorems: registry invariants -/

/-- C2: for every sequence of registry operations (joins via
`addParticipant`, admissions via `admitFromWaitingRoom` followed by
`addParticipant`, removals, and the rest) starting from a fresh manager,
every room in the registry satisfies `|participants| ≤ maxParticipants`
after the sequence returns — and hence after each prefix, every prefix
being such a sequence. -/
theorem C2_capacity_bound (ops : List RegOp) :
    (applyOps RoomManager.init ops).capacityOk = true :=
  capacityOk_applyOps ops RoomManager.init rfl

/-- C3: after any sequence of registry operations as the server invokes
them (fresh `randomUUID` participant ids for `addParticipant`, dispatcher
patches that never target `id` and never clear the moderator bit —
`wfSeq`), every non-empty room's `hostId` names a participant present in
its `participants` map whose record has that id and `isModerator = true`;
`addParticipant` makes the first joiner (or an `isHost` joiner) host, and
`removeParticipant` promotes the first remaining participant when the
host departs, setting their moderator bit. -/
theorem C3_host_exists (ops : List RegOp) (hwf : wfSeq RoomManager.init ops = true) :
    (applyOps RoomManager.init ops).hostOk = true :=
  (hostinv_applyOps ops RoomManager.init hwf rfl rfl).2

/-- Witness for C3 at a concrete sequence exercising host promotion. -/
theorem C3_host_exists_witness :
    wfSeq RoomManager.init demoOps = true ∧
      (applyOps RoomManager.init demoOps).hostOk = true :=
  ⟨by decide, C3_host_exists demoOps (by decide)⟩

/-- C4 counterexample: a bare `getOrCreateRoom` on an unknown room id
installs — and leaves behind — an ad-hoc room with zero participants, so
the claimed invariant fails right after that operation returns. -/
theorem C4_no_ghost_counterexample :
    ((applyOp RoomManager.init (RegOp.getOrCreateRoom "R" none 0)).getRoom "R").isSome = true ∧
      (applyOp RoomManager.init (RegOp.getOrCreateRoom "R" none 0)).ghostFree = false :=
  ⟨rfl, rfl⟩

/-- C4 (amended): after any ghost-safe sequence of registry operations —
one with no bare `createRoom` and with `getOrCreateRoom` /
`addToWaitingRoom` invoked only on room ids already present — no ad-hoc
room with zero participants exists in the registry.  (`getOrCreateRoom`
and `addToWaitingRoom` on an unknown id, and `createRoom` itself, do
leave an empty ad-hoc room until a participant is added.) -/
theorem C4_no_ghost_amended (ops : List RegOp)
    (hsafe : ghostSafeSeq RoomManager.init ops = true) :
    (applyOps RoomManager.init ops).ghostFree = true :=
  ghost_applyOps ops RoomManager.init hsafe (by decide) rfl

/-- Witness for the amended C4 at a concrete sequence. -/
theorem C4_no_ghost_amended_witness :
    ghostSafeSeq RoomManager.init demoOps = true ∧
      (applyOps RoomManager.init demoOps).ghostFree = true :=
  ⟨by decide, C4_no_ghost_amended demoOps (by decide)⟩

/-! ## Claim theorems: `validatePassword` (C7) -/

/-- Registry whose room `R` stores the empty string as its password, as
produced by the pre-create REST endpoint passing `options.password`
through unchecked. -/
def rmC7 : RoomManager :=
  (RoomManager.init.preCreateRoom (some "R") (some "") none "gen" "tok" 0).1

/-- C7 counterexample: room `R` exists and stores the password `""`; the
candidate `"x"` differs from it, yet `validatePassword` returns `true`
(JS falsiness of `""`), refuting the claimed if-and-only-if. -/
theorem C7_validatePassword_counterexample :
    rmC7.validatePassword "R" (some "x") = true ∧
      (rmC7.getRoom "R").isSome = true ∧
      ((rmC7.getRoom "R").bind (fun r => r.password)) = some "" ∧
      ¬ ((rmC7.getRoom "R").bind (fun r => r.password)) = some "x" :=
  ⟨rfl, rfl, rfl, by decide⟩

/-- C7 (amended): `validatePassword` returns `true` iff no room with the
id exists, or the room's stored password is absent **or the empty
string**, or the candidate exactly equals the stored password. -/
theorem C7_validatePassword_amended (rm : RoomManager) (roomId : String)
    (candidate : Option String) :
    rm.validatePassword roomId candidate = true ↔
      rm.getRoom roomId = none ∨
        (∃ room, rm.getRoom roomId = some room ∧ room.password = none) ∨
        (∃ room p, rm.getRoom roomId = some room ∧ room.password = some p ∧
          (p = "" ∨ candidate = some p)) := by
  unfold RoomManager.validatePassword
  cases hroom : rm.getRoom roomId with
  | none => simp
  | some room =>
    cases hpw : room.password with
    | none =>
      simp only [hroom, hpw]
      constructor
      · intro _
        exact Or.inr (Or.inl ⟨room, rfl, hpw⟩)
      · intro _
        trivial
    | some p =>
      simp only [hroom, hpw]
      by_cases hp : p = ""
      · rw [if_pos hp]
        constructor
        · intro _
          exact Or.inr (Or.inr ⟨room, p, rfl, hpw, Or.inl hp⟩)
        · intro _
          trivial
      · rw [if_neg hp]
        constructor
        · intro hc
          exact Or.inr (Or.inr ⟨room, p, rfl, hpw, Or.inr (by simpa using hc)⟩)
        · rintro (hnone | ⟨room1, hr1, hpw1⟩ | ⟨room1, p1, hr1, hpw1, hcase⟩)
          · cases hnone
          · rw [Option.some.injEq] at hr1
            rw [← hr1, hpw] at hpw1
            cases hpw1
          · rw [Option.some.injEq] at hr1
            rw [← hr1, hpw, Option.some.injEq] at hpw1
            subst hpw1
            rcases hcase with hc | hc
            · exact absurd hc hp
            · simp [hc]

/-! ## Claim theorems: `updateParticipant` (C9) -/

/-- A patch touching only `id`, allowed by the `Partial<Participant>`
type that `updateParticipant` accepts. -/
def patchId : ParticipantPatch := { id := some "zz" }

/-- A patch touching only `isMuted` (the shape the dispatcher sends). -/
def patchMuted : ParticipantPatch := { isMuted := some true }

/-- C9 counterexample: before the patch, the participant stored under key
`"alice"` has `id = "alice"`; after `updateParticipant` with a patch
whose `id` field is set, `Object.assign` has overwritten the stored
record's `id` to `"zz"` — refuting "leaves `id` unchanged" for arbitrary
patches. -/
theorem C9_update_counterexample :
    ((rmW.getRoom "R").bind (fun r => (JMap.get? r.participants "alice").map
        (fun p => p.id))) = some "alice" ∧
      (((rmW.updateParticipant "R" "alice" patchId).getRoom "R").bind
        (fun r => (JMap.get? r.participants "alice").map (fun p => p.id))) = some "zz" :=
  ⟨rfl, rfl⟩

/-- C9 (amended): for every room containing the participant and every
patch whose `id`, `roomId` and `joinedAt` fields are absent (the allowed
subset — the only shapes the server sends), `updateParticipant` stores
exactly the `Object.assign`-merge of the patch into the record, and the
merged record keeps `id`, `roomId` and `joinedAt` unchanged. -/
theorem C9_update_amended (rm : RoomManager) (roomId participantId : String)
    (patch : ParticipantPatch) (room : Room) (p : Participant)
    (hroom : rm.getRoom roomId = some room)
    (hp : JMap.get? room.participants participantId = some p)
    (hid : patch.id = none) (hrid : patch.roomId = none) (hjoin : patch.joinedAt = none) :
    (((rm.updateParticipant roomId participantId patch).getRoom roomId).bind
        (fun r => JMap.get? r.participants participantId)) = some (applyPatch p patch) ∧
      (applyPatch p patch).id = p.id ∧
      (applyPatch p patch).roomId = p.roomId ∧
      (applyPatch p patch).joinedAt = p.joinedAt := by
  refine ⟨?_, ?_, ?_, ?_⟩
  · have hstate : rm.updateParticipant roomId participantId patch =
        { rm with rooms :=
            (JMap.set rm.rooms roomId
              ({ room with participants :=
                  (JMap.set room.participants participantId (applyPatch p patch)) })) } := by
      simp [RoomManager.updateParticipant, hroom, hp]
    rw [hstate]
    simp [RoomManager.getRoom, JMap.get?_set]
  · simp [applyPatch, hid]
  · simp [applyPatch, hrid]
  · simp [applyPatch, hjoin]

/-- Witness for the amended C9 at a concrete registry and patch. -/
theorem C9_update_amended_witness :
    (((rmW.updateParticipant "R" "alice" patchMuted).getRoom "R").bind
        (fun r => JMap.get? r.participants "alice")) = some (applyPatch aliceP patchMuted) ∧
      (applyPatch aliceP patchMuted).id = aliceP.id ∧
      (applyPatch aliceP patchMuted).roomId = aliceP.roomId ∧
      (applyPatch aliceP patchMuted).joinedAt = aliceP.joinedAt :=
  C9_update_amended rmW "R" "alice" patchMuted roomW aliceP rfl rfl rfl rfl rfl

/-! ## Claim theorems: `createRoom` (C10) -/

/-- C10: `createRoom` unconditionally installs a fresh room with empty
`participants` and `waitingRoom` under the given id — even when a room
with that id already exists; the lookup afterwards yields exactly the
fresh room (so the pre-existing room with its members is no longer
reachable), and rooms under other ids are untouched. -/
theorem C10_createRoom_replaces (rm : RoomManager) (roomId : String)
    (config : Option RoomConfig) (now : Nat) :
    (rm.createRoom roomId config now).1.getRoom roomId =
        some (rm.createRoom roomId config now).2 ∧
      (rm.createRoom roomId config now).2.participants = [] ∧
      (rm.createRoom roomId config now).2.waitingRoom = [] ∧
      (rm.createRoom roomId config now).2.id = roomId ∧
      (rm.createRoom roomId config now).2.hostId = none ∧
      (rm.createRoom roomId config now).2.isLocked = false ∧
      (rm.createRoom roomId config now).2.password = config.bind (fun c => c.password) ∧
      (rm.createRoom roomId config now).2.maxParticipants =
        (config.bind (fun c => c.maxParticipants)).getD rm.defaultMaxParticipants ∧
      (∀ other : String, ¬ other = roomId →
        (rm.createRoom roomId config now).1.getRoom other = rm.getRoom other) := by
  refine ⟨?_, rfl, rfl, rfl, rfl, rfl, rfl, rfl, ?_⟩
  · simp only [RoomManager.createRoom, RoomManager.getRoom]
    rw [JMap.get?_set, if_pos rfl]
  · intro other hne
    simp only [RoomManager.createRoom, RoomManager.getRoom]
    rw [JMap.get?_set, if_neg hne]

/-- Witness for C10: replacing the room `R` of `rmW` leaves other ids
untouched and installs an empty room over the populated one. -/
theorem C10_createRoom_replaces_witness :
    (rmW.createRoom "R" none 5).1.getRoom "K" = rmW.getRoom "K" ∧
      (rmW.createRoom "R" none 5).2.participants = [] :=
  ⟨(C10_createRoom_replaces rmW "R" none 5).2.2.2.2.2.2.2.2 "K" (by decide),
   (C10_createRoom_replaces rmW "R" none 5).2.1⟩

/-! ## Connection dispatcher (`signaling-server.ts`)

The dispatcher maps each connected socket (keyed by its identity) to at
most one `Participant` or one `WaitingParticipant`.  Outbound traffic is
returned as an explicit list of `(socket id, envelope)` pairs in the
order the source emits the `send` calls; `socket.close()` is transport
I/O and is not tracked.  In the source, the participant object held by
the dispatcher and the record inside the registry are the same JS
object; mutations of it are modelled by writing the updated record into
both maps. -/

/-- `ModeratorAction` from `types.ts`. -/
inductive MAction where
  | mute
  | unmute
  | kick
  | makeModerator
deriving Repr, DecidableEq

/-- Inbound messages, after JSON decoding (one constructor per
`SignalingMessage` variant the dispatcher switches on; the seven
targeted variants share the `relay` constructor, with `rtype` the tag
and `payload` the variant-specific fields, which the server forwards
without reading). -/
inductive InMsg where
  | join (roomId name : String) (password : Option String) (isHost : Bool)
      (creatorToken : Option String)
  | leave
  | relay (rtype : String) (targetId : Option String) (participantId payload : String)
  | chat (roomId participantId text : String) (replyTo : Option String)
  | participantUpdated (isMuted isVideoOff isHandRaised : Option Bool)
  | raiseHand
  | lowerHand
  | moderatorAction (targetId : String) (action : MAction)
  | roomLocked
  | roomUnlocked
  | admitUser (targetId : String)
  | rejectUser (targetId reason : String)
  | recordingStarted
  | recordingStopped
deriving Repr, DecidableEq

/-- Outbound envelopes (the fields the source writes). -/
inductive Out where
  | errorMsg (message : String) (code : Option String)
  | participantJoined (roomId participantId name : String)
      (isModerator isMuted isVideoOff : Bool)
  | participantLeft (roomId participantId : String)
  | waitingRoomMsg (roomId participantId name : String)
  | chatOut (roomId participantId text : String) (replyTo : Option String)
  | participantUpdatedOut (roomId participantId : String)
      (isMuted isVideoOff isHandRaised : Option Bool)
  | raiseHandOut (roomId participantId : String)
  | lowerHandOut (roomId participantId : String)
  | moderatorActionOut (roomId participantId targetId : String) (action : MAction)
  | roomLockedOut (roomId participantId lockedBy : String)
  | roomUnlockedOut (roomId participantId unlockedBy : String)
  | rejectUserOut (roomId participantId reason : String)
  | relayOut (rtype targetId participantId payload : String)
deriving Repr, DecidableEq

/-- The state of `SignalingServer`: the shared registry plus the two
per-socket binding maps. -/
structure ServerState where
  rm : RoomManager
  participants : JMap Nat Participant := []
  waitingParticipants : JMap Nat WaitingParticipant := []
deriving Repr, DecidableEq

/-- `sendError`: emits only on an open socket. -/
def sendError (sock : Socket) (message : String) (code : Option String) : List (Nat × Out) :=
  if sock.readyState = 1 then [(sock.sid, Out.errorMsg message code)] else []

/-- `broadcast`: one copy to every other open-socket participant of the
room (`excludeId ?? ""`). -/
def RoomManager.broadcast (rm : RoomManager) (roomId : String) (msg : Out)
    (excludeId : Option String) : List (Nat × Out) :=
  ((rm.getOtherParticipants roomId (excludeId.getD "")).filter
      (fun p => p.socket.readyState = 1)).map (fun p => (p.socket.sid, msg))

/-- `sendTo`: one copy to the given participant of the given room, if
present with an open socket. -/
def RoomManager.sendTo (rm : RoomManager) (participantId roomId : String) (msg : Out) :
    List (Nat × Out) :=
  match rm.getRoom roomId with
  | none => []
  | some room =>
    match JMap.get? room.participants participantId with
    | none => []
    | some p => if p.socket.readyState = 1 then [(p.socket.sid, msg)] else []

/-- JS truthiness of an optional string (`!!s`). -/
def strTruthy : Option String → Bool
  | none => false
  | some s => decide (¬ s = "")

/-- Aliasing write-through: the dispatcher's participant object and the
registry record are one JS object, so a mutation of it is visible in the
room's map whenever the record is stored there. -/
def RoomManager.writeThrough (rm : RoomManager) (roomId pid : String) (p1 : Participant) :
    RoomManager :=
  match rm.getRoom roomId with
  | none => rm
  | some room =>
    if JMap.hasKey room.participants pid then
      { rm with rooms :=
          (JMap.set rm.rooms roomId
            ({ room with participants := (JMap.set room.participants pid p1) })) }
    else rm

/-- The waiting-room path of `handleJoin` (source lines 133-174): insert
a `WaitingParticipant`, acknowledge the joiner, notify moderators. -/
def joinLockedFlow (st : ServerState) (sock : Socket) (roomId name newId : String)
    (now : Nat) : ServerState × List (Nat × Out) :=
  let wp : WaitingParticipant := { id := newId, name := name, socket := sock, requestedAt := now }
  let ar := st.rm.addToWaitingRoom roomId wp now
  if ar.2 then
    let st1 : ServerState :=
      { st with rm := ar.1
                waitingParticipants := (JMap.set st.waitingParticipants sock.sid wp) }
    let modSends :=
      ((ar.1.getParticipants roomId).filter
          (fun q => q.isModerator && decide (q.socket.readyState = 1))).map
        (fun q => (q.socket.sid, Out.waitingRoomMsg roomId newId name))
    (st1, (sock.sid, Out.waitingRoomMsg roomId newId name) :: modSends)
  else ({ st with rm := ar.1 }, sendError sock "Room is full" none)

/-- The three waves of `participant-joined` traffic emitted after a
successful join (source lines 218-250): broadcast of the newcomer to the
room, the same envelope echoed to the joiner, then one envelope per
pre-existing peer sent to the joiner. -/
def joinSuccessSends (rm4 : RoomManager) (roomId newId name : String) (sid : Nat)
    (fp : Participant) : List (Nat × Out) :=
  rm4.broadcast roomId
      (Out.participantJoined roomId newId name fp.isModerator fp.isMuted fp.isVideoOff)
      (some newId) ++
    [(sid, Out.participantJoined roomId newId name fp.isModerator fp.isMuted fp.isVideoOff)] ++
    (rm4.getOtherParticipants roomId newId).map
      (fun ex => (sid, Out.participantJoined roomId ex.id ex.name
        ex.isModerator ex.isMuted ex.isVideoOff))

/-- The admission path of `handleJoin` (source lines 176-251): optional
room creation with password, `addParticipant`, the creator/first-joiner
host fix-up, dispatcher binding, and the three waves of
`participant-joined` messages. -/
def joinOpenFlow (st : ServerState) (sock : Socket) (roomId name : String)
    (password : Option String) (isHost isCreator : Bool) (newId : String) (now : Nat) :
    ServerState × List (Nat × Out) :=
  let rm2 :=
    if strTruthy password = true ∧ st.rm.getRoom roomId = none then
      (st.rm.createRoom roomId (some { password := password }) now).1
    else st.rm
  let participant : Participant :=
    { id := newId, name := name, socket := sock, roomId := roomId, isModerator := false
      isMuted := false, isVideoOff := false, isHandRaised := false, joinedAt := now }
  let ar := rm2.addParticipant roomId participant (isHost || isCreator) now
  if ar.2 = false then ({ st with rm := ar.1 }, sendError sock "Room is full" none)
  else
    -- `addParticipant` may have mutated the (shared) participant object;
    -- re-read the stored record.
    let stored := ((ar.1.getRoom roomId).bind
      (fun r => JMap.get? r.participants newId)).getD participant
    let fix : RoomManager × Participant :=
      match ar.1.getRoom roomId with
      | some room =>
        if isCreator = true ∨ room.participants.length = 1 then
          ({ ar.1 with rooms :=
              (JMap.set ar.1.rooms roomId
                ({ room with hostId := some newId
                             participants :=
                               (JMap.set room.participants newId
                                 ({ stored with isModerator := true })) })) },
            { stored with isModerator := true })
        else (ar.1, stored)
      | none => (ar.1, stored)
    let st2 : ServerState :=
      { st with rm := fix.1, participants := (JMap.set st.participants sock.sid fix.2) }
    (st2, joinSuccessSends fix.1 roomId newId name sock.sid fix.2)

/-- `handleJoin` (source lines 110-251). -/
def handleJoin (st : ServerState) (sock : Socket) (roomId name : String)
    (password : Option String) (isHost : Bool) (creatorToken : Option String)
    (newId : String) (now : Nat) : ServerState × List (Nat × Out) :=
  if isHost = false ∧ st.rm.getRoom roomId = none then
    (st, sendError sock "Meeting not found. Check the code and try again."
      (some "ROOM_NOT_FOUND"))
  else if (st.rm.getRoom roomId).isSome = true ∧
      st.rm.validatePassword roomId password = false then
    (st, sendError sock "Invalid room password" (some "INVALID_PASSWORD"))
  else
    let isCreator := strTruthy creatorToken &&
      st.rm.validateCreatorToken roomId (creatorToken.getD "")
    if st.rm.isRoomLocked roomId = true ∧ isCreator = false then
      joinLockedFlow st sock roomId name newId now
    else
      joinOpenFlow st sock roomId name password isHost isCreator newId now

/-- Which room holds a given waiting participant (source lines 283-290). -/
def findRoomForWaitingParticipant (rm : RoomManager) (pid : String) : Option String :=
  (rm.rooms.find? (fun e => JMap.hasKey e.2.waitingRoom pid)).map (fun e => e.1)

/-- `handleDisconnect` (also the `leave` path, source lines 253-280). -/
def handleDisconnect (st : ServerState) (sock : Socket) : ServerState × List (Nat × Out) :=
  match JMap.get? st.participants sock.sid with
  | some p =>
    let rm1 := st.rm.removeParticipant p.roomId p.id
    ({ st with rm := rm1, participants := (JMap.del st.participants sock.sid) },
      rm1.broadcast p.roomId (Out.participantLeft p.roomId p.id) none)
  | none =>
    match JMap.get? st.waitingParticipants sock.sid with
    | some wp =>
      let rm1 :=
        match findRoomForWaitingParticipant st.rm wp.id with
        | some rid => (st.rm.rejectFromWaitingRoom rid wp.id).1
        | none => st.rm
      ({ st with rm := rm1
                 waitingParticipants := (JMap.del st.waitingParticipants sock.sid) }, [])
    | none => (st, [])

/-- `handleChat` (source lines 292-309): rewrite `participantId`,
broadcast to the room, echo to the sender. -/
def handleChat (st : ServerState) (sock : Socket) (croomId cpid text : String)
    (replyTo : Option String) : ServerState × List (Nat × Out) :=
  match JMap.get? st.participants sock.sid with
  | none => (st, sendError sock "Not joined to a room" none)
  | some p =>
    let msg := Out.chatOut croomId p.id text replyTo
    (st, st.rm.broadcast p.roomId msg (some p.id) ++ [(sock.sid, msg)])

/-- `handleParticipantUpdate` (source lines 311-341). -/
def handleParticipantUpdate (st : ServerState) (sock : Socket)
    (isMuted isVideoOff isHandRaised : Option Bool) : ServerState × List (Nat × Out) :=
  match JMap.get? st.participants sock.sid with
  | none => (st, sendError sock "Not joined to a room" none)
  | some p =>
    let p1 := { p with isMuted := isMuted.getD p.isMuted
                       isVideoOff := isVideoOff.getD p.isVideoOff
                       isHandRaised := isHandRaised.getD p.isHandRaised }
    let rm1 := st.rm.writeThrough p.roomId p.id p1
    let st1 : ServerState :=
      { st with rm := rm1, participants := (JMap.set st.participants sock.sid p1) }
    let updMsg := Out.participantUpdatedOut p.roomId p.id (some p1.isMuted)
      (some p1.isVideoOff) (some p1.isHandRaised)
    (st1, rm1.broadcast p.roomId updMsg (some p.id))

/-- `handleRaiseHand` (source lines 343-357): silent return when unbound. -/
def handleRaiseHand (st : ServerState) (sock : Socket) : ServerState × List (Nat × Out) :=
  match JMap.get? st.participants sock.sid with
  | none => (st, [])
  | some p =>
    let p1 := { p with isHandRaised := true }
    let rm1 := st.rm.writeThrough p.roomId p.id p1
    let st1 : ServerState :=
      { st with rm := rm1, participants := (JMap.set st.participants sock.sid p1) }
    (st1, rm1.broadcast p.roomId (Out.raiseHandOut p.roomId p.id) (some p.id))

/-- `handleLowerHand` (source lines 359-373): silent return when unbound. -/
def handleLowerHand (st : ServerState) (sock : Socket) : ServerState × List (Nat × Out) :=
  match JMap.get? st.participants sock.sid with
  | none => (st, [])
  | some p =>
    let p1 := { p with isHandRaised := false }
    let rm1 := st.rm.writeThrough p.roomId p.id p1
    let st1 : ServerState :=
      { st with rm := rm1, participants := (JMap.set st.participants sock.sid p1) }
    (st1, rm1.broadcast p.roomId (Out.lowerHandOut p.roomId p.id) (some p.id))

/-- `handleModeratorAction` (source lines 375-445). -/
def handleModeratorAction (st : ServerState) (sock : Socket) (targetId : String)
    (action : MAction) : ServerState × List (Nat × Out) :=
  match JMap.get? st.participants sock.sid with
  | none => (st, sendError sock "Not joined to a room" none)
  | some p =>
    if p.isModerator = false then
      (st, sendError sock "Only moderators can perform this action" none)
    else
      match (st.rm.getParticipants p.roomId).find? (fun q => decide (q.id = targetId)) with
      | none => (st, sendError sock "Target participant not found" none)
      | some target =>
        let step : RoomManager × List (Nat × Out) :=
          match action with
          | .mute => (st.rm.updateParticipant p.roomId targetId { isMuted := some true }, [])
          | .unmute => (st.rm.updateParticipant p.roomId targetId { isMuted := some false }, [])
          | .kick =>
            ((st.rm.kickParticipant p.roomId targetId).1,
              st.rm.sendTo targetId p.roomId
                (Out.moderatorActionOut p.roomId p.id targetId MAction.kick))
          | .makeModerator =>
            (st.rm.updateParticipant p.roomId targetId { isModerator := some true }, [])
        let tAfter := ((step.1.getRoom p.roomId).bind
          (fun r => JMap.get? r.participants targetId)).getD target
        let updMsg := Out.participantUpdatedOut p.roomId targetId (some tAfter.isMuted)
          none (some tAfter.isHandRaised)
        ({ st with rm := step.1 },
          step.2 ++ step.1.broadcast p.roomId updMsg none ++
            step.1.sendTo targetId p.roomId
              (Out.moderatorActionOut p.roomId p.id targetId action))

/-- `handleRoomLock` (source lines 447-465): `!participant?.isModerator`
rejects both unbound sockets and non-moderators. -/
def handleRoomLock (st : ServerState) (sock : Socket) : ServerState × List (Nat × Out) :=
  match JMap.get? st.participants sock.sid with
  | none => (st, sendError sock "Only moderators can lock the room" none)
  | some p =>
    if p.isModerator = false then
      (st, sendError sock "Only moderators can lock the room" none)
    else
      let rm1 := st.rm.lockRoom p.roomId
      ({ st with rm := rm1 },
        rm1.broadcast p.roomId (Out.roomLockedOut p.roomId p.id p.id) none)

/-- `handleRoomUnlock` (source lines 467-485). -/
def handleRoomUnlock (st : ServerState) (sock : Socket) : ServerState × List (Nat × Out) :=
  match JMap.get? st.participants sock.sid with
  | none => (st, sendError sock "Only moderators can unlock the room" none)
  | some p =>
    if p.isModerator = false then
      (st, sendError sock "Only moderators can unlock the room" none)
    else
      let rm1 := st.rm.unlockRoom p.roomId
      ({ st with rm := rm1 },
        rm1.broadcast p.roomId (Out.roomUnlockedOut p.roomId p.id p.id) none)

/-- `handleAdmitUser` (source lines 487-564).  Note the source ignores
the return value of `addParticipant` (line 513). -/
def handleAdmitUser (st : ServerState) (sock : Socket) (targetId : String) (now : Nat) :
    ServerState × List (Nat × Out) :=
  match JMap.get? st.participants sock.sid with
  | none => (st, sendError sock "Only moderators can admit users" none)
  | some p =>
    if p.isModerator = false then
      (st, sendError sock "Only moderators can admit users" none)
    else
      let ar := st.rm.admitFromWaitingRoom p.roomId targetId
      match ar.2 with
      | none => ({ st with rm := ar.1 }, [])
      | some wp =>
        let newParticipant : Participant :=
          { id := wp.id, name := wp.name, socket := wp.socket, roomId := p.roomId
            isModerator := false, isMuted := false, isVideoOff := false
            isHandRaised := false, joinedAt := now }
        let ar2 := ar.1.addParticipant p.roomId newParticipant false now
        let stored :=
          if ar2.2 then
            ((ar2.1.getRoom p.roomId).bind
              (fun r => JMap.get? r.participants wp.id)).getD newParticipant
          else newParticipant
        let st1 : ServerState :=
          { st with rm := ar2.1
                    participants := (JMap.set st.participants wp.socket.sid stored)
                    waitingParticipants := (JMap.del st.waitingParticipants wp.socket.sid) }
        let selfJoin := Out.participantJoined p.roomId wp.id wp.name false false false
        let existing := (ar2.1.getOtherParticipants p.roomId wp.id).map
          (fun ex => (wp.socket.sid, Out.participantJoined p.roomId ex.id ex.name
            ex.isModerator ex.isMuted ex.isVideoOff))
        (st1, (wp.socket.sid, selfJoin) :: existing ++
          ar2.1.broadcast p.roomId selfJoin (some wp.id))

/-- `handleRejectUser` (source lines 566-596); closing the rejected
socket is I/O. -/
def handleRejectUser (st : ServerState) (sock : Socket) (targetId reason : String) :
    ServerState × List (Nat × Out) :=
  match JMap.get? st.participants sock.sid with
  | none => (st, sendError sock "Only moderators can reject users" none)
  | some p =>
    if p.isModerator = false then
      (st, sendError sock "Only moderators can reject users" none)
    else
      let ar := st.rm.rejectFromWaitingRoom p.roomId targetId
      match ar.2 with
      | none => ({ st with rm := ar.1 }, [])
      | some wp =>
        ({ st with rm := ar.1
                   waitingParticipants := (JMap.del st.waitingParticipants wp.socket.sid) },
          [(wp.socket.sid, Out.rejectUserOut p.roomId wp.id reason)])

/-- `handleRelayMessage` (source lines 598-611): forward to `targetId`
with `participantId` rewritten to the sender's server-known id. -/
def handleRelayMessage (st : ServerState) (sock : Socket) (rtype : String)
    (targetId : Option String) (cpid payload : String) : ServerState × List (Nat × Out) :=
  match JMap.get? st.participants sock.sid with
  | none => (st, sendError sock "Not joined to a room" none)
  | some p =>
    match targetId with
    | none => (st, [])
    | some t =>
      if t = "" then (st, [])
      else (st, st.rm.sendTo t p.roomId (Out.relayOut rtype t p.id payload))

/-- `handleMessage` (source lines 54-108): the dispatch switch.
`recording-started` / `recording-stopped` are in the message union but
have no `case`, so they fall through to the default branch. -/
def handleMessage (st : ServerState) (sock : Socket) (m : InMsg) (newId : String)
    (now : Nat) : ServerState × List (Nat × Out) :=
  match m with
  | .join roomId name password isHost creatorToken =>
    handleJoin st sock roomId name password isHost creatorToken newId now
  | .leave => handleDisconnect st sock
  | .relay rtype targetId cpid payload => handleRelayMessage st sock rtype targetId cpid payload
  | .chat croomId cpid text replyTo => handleChat st sock croomId cpid text replyTo
  | .participantUpdated a b c => handleParticipantUpdate st sock a b c
  | .raiseHand => handleRaiseHand st sock
  | .lowerHand => handleLowerHand st sock
  | .moderatorAction targetId action => handleModeratorAction st sock targetId action
  | .roomLocked => handleRoomLock st sock
  | .roomUnlocked => handleRoomUnlock st sock
  | .admitUser targetId => handleAdmitUser st sock targetId now
  | .rejectUser targetId reason => handleRejectUser st sock targetId reason
  | .recordingStarted => (st, sendError sock "Unknown message type" none)
  | .recordingStopped => (st, sendError sock "Unknown message type" none)

/-- Is the message a `join`? -/
def InMsg.isJoin : InMsg → Bool
  | .join _ _ _ _ _ => true
  | _ => false

/-- Is this envelope an `error` with code `ROOM_NOT_FOUND`? -/
def isRNF (o : Out) : Bool :=
  match o with
  | Out.errorMsg _ (some c) => decide (c = "ROOM_NOT_FOUND")
  | _ => false

/-- Did the outbound batch include an `error` envelope with code
`ROOM_NOT_FOUND`? -/
def sentRoomNotFound (sends : List (Nat × Out)) : Bool :=
  sends.any (fun s => isRNF s.2)

theorem rnf_append (a b : List (Nat × Out)) :
    sentRoomNotFound (a ++ b) = (sentRoomNotFound a || sentRoomNotFound b) := by
  simp [sentRoomNotFound]

theorem rnf_cons (x : Nat × Out) (l : List (Nat × Out)) :
    sentRoomNotFound (x :: l) = (isRNF x.2 || sentRoomNotFound l) := by
  simp [sentRoomNotFound]

theorem rnf_map {A : Type} (l : List A) (f : A → Nat × Out)
    (hf : ∀ x, isRNF (f x).2 = false) : sentRoomNotFound (List.map f l) = false := by
  induction l with
  | nil => rfl
  | cons a rest ih =>
    rw [List.map_cons, rnf_cons, hf a, ih]
    rfl

theorem rnf_sendError_no_code (sock : Socket) (msg : String) :
    sentRoomNotFound (sendError sock msg none) = false := by
  simp only [sendError]
  split <;> simp [sentRoomNotFound, isRNF]

theorem rnf_broadcast (rm : RoomManager) (roomId : String) (msg : Out)
    (ex : Option String) (h : isRNF msg = false) :
    sentRoomNotFound (rm.broadcast roomId msg ex) = false := by
  unfold RoomManager.broadcast
  exact rnf_map _ _ (fun x => h)

/-- The three waves of `participant-joined` traffic after a successful
join contain no `ROOM_NOT_FOUND` error. -/
theorem rnf_join_sends (rm4 : RoomManager) (roomId newId name : String) (sid : Nat)
    (fp : Participant) :
    sentRoomNotFound (joinSuccessSends rm4 roomId newId name sid fp) = false := by
  unfold joinSuccessSends
  rw [rnf_append, rnf_append, rnf_broadcast _ _ _ _ (by rfl), rnf_cons]
  rw [rnf_map]
  · simp [sentRoomNotFound, isRNF]
  · intro q
    rfl

/-! ## Dispatcher fixtures -/

/-- A server with an empty registry and no bindings. -/
def stEmpty : ServerState := { rm := RoomManager.init }

/-- Moderator of the locked one-seat room `L`. -/
def modP : Participant :=
  { id := "mod", name := "Mod", socket := { sid := 1, readyState := 1 }, roomId := "L"
    isModerator := true, isMuted := false, isVideoOff := false, isHandRaised := false
    joinedAt := 0 }

/-- Dan, waiting to be admitted into room `L`. -/
def waitD : WaitingParticipant :=
  { id := "dan", name := "Dan", socket := { sid := 2, readyState := 1 }, requestedAt := 0 }

/-- A locked room at capacity (`maxParticipants = 1`) with one waiting
candidate — reachable by filling the room after Dan entered the waiting
queue. -/
def roomFull : Room :=
  { id := "L", participants := [("mod", modP)], waitingRoom := [("dan", waitD)]
    password := none, isLocked := true, hostId := some "mod", createdAt := 0
    maxParticipants := 1 }

/-- Server state around `roomFull`. -/
def stFull : ServerState :=
  { rm := { rooms := [("L", roomFull)] }
    participants := [(1, modP)]
    waitingParticipants := [(2, waitD)] }

/-- Two-member open room used by the relay witness. -/
def relayRoom : Room :=
  { id := "R", participants := [("alice", aliceP), ("bob", bobP)], waitingRoom := []
    password := none, isLocked := false, hostId := some "alice", createdAt := 0
    maxParticipants := 8 }

/-- Server state around `relayRoom` with both sockets bound. -/
def stRelay : ServerState :=
  { rm := { rooms := [("R", relayRoom)] }
    participants := [(1, aliceP), (2, bobP)] }

/-! ## Claim theorems: admit-user (C1) -/

/-- C1: admitting `dan` into the full room `L` removes him from the
waiting map, but `addParticipant` fails (room at capacity) and its
return value is ignored (signaling-server.ts line 513), so `dan` is in
neither map of the room — the waiting→participant transition is not
atomic.  Worse, the dispatcher binds his socket as an active participant
and he is sent a `participant-joined` as if admission had succeeded. -/
theorem C1_admit_full_room_bug :
    ((handleMessage stFull { sid := 1, readyState := 1 } (InMsg.admitUser "dan") "x" 5).1.rm.getRoom
        "L").map (fun r => JMap.get? r.waitingRoom "dan") = some none ∧
      ((handleMessage stFull { sid := 1, readyState := 1 } (InMsg.admitUser "dan") "x" 5).1.rm.getRoom
        "L").map (fun r => JMap.get? r.participants "dan") = some none ∧
      (JMap.get? (handleMessage stFull { sid := 1, readyState := 1 }
        (InMsg.admitUser "dan") "x" 5).1.participants 2).map (fun p => p.id) = some "dan" ∧
      (2, Out.participantJoined "L" "dan" "Dan" false false false) ∈
        (handleMessage stFull { sid := 1, readyState := 1 } (InMsg.admitUser "dan") "x" 5).2 := by
  refine ⟨rfl, rfl, rfl, ?_⟩
  decide

/-! ## Claim theorems: join rejection (C5) -/

/-- The waiting-room flow never emits `ROOM_NOT_FOUND`. -/
theorem lockedFlow_no_rnf (st : ServerState) (sock : Socket) (roomId name newId : String)
    (now : Nat) :
    sentRoomNotFound (joinLockedFlow st sock roomId name newId now).2 = false := by
  simp only [joinLockedFlow]
  split
  · rw [rnf_cons]
    rw [rnf_map]
    · simp [isRNF]
    · intro q
      rfl
  · exact rnf_sendError_no_code sock "Room is full"

/-- The admission flow never emits `ROOM_NOT_FOUND`. -/
theorem openFlow_no_rnf (st : ServerState) (sock : Socket) (roomId name : String)
    (password : Option String) (isHost isCreator : Bool) (newId : String) (now : Nat) :
    sentRoomNotFound
      (joinOpenFlow st sock roomId name password isHost isCreator newId now).2 = false := by
  simp only [joinOpenFlow]
  split <;> split <;>
    first
    | exact rnf_sendError_no_code sock "Room is full"
    | exact rnf_join_sends _ _ _ _ _ _

/-- C5 (amended): a join is answered with an `error` envelope carrying
code `ROOM_NOT_FOUND` iff no room with the given id exists and the
message's `isHost` flag is false (and the sender's socket is open so the
envelope can be written); the presence of a creator token is **not**
consulted by this check. -/
theorem C5_room_not_found_amended (st : ServerState) (sock : Socket) (roomId name : String)
    (password : Option String) (isHost : Bool) (creatorToken : Option String)
    (newId : String) (now : Nat) :
    sentRoomNotFound
        (handleJoin st sock roomId name password isHost creatorToken newId now).2 = true ↔
      (st.rm.getRoom roomId = none ∧ isHost = false ∧ sock.readyState = 1) := by
  unfold handleJoin
  by_cases h1 : isHost = false ∧ st.rm.getRoom roomId = none
  · rw [if_pos h1]
    simp only [sentRoomNotFound, sendError, isRNF]
    by_cases h2 : sock.readyState = 1 <;> simp [h2, h1.1, h1.2]
  · rw [if_neg h1]
    have hr : ¬ (st.rm.getRoom roomId = none ∧ isHost = false ∧ sock.readyState = 1) := by
      intro hc
      exact h1 ⟨hc.2.1, hc.1⟩
    simp only [hr, iff_false]
    split
    · simp only [sentRoomNotFound, sendError, isRNF]
      split <;> simp
    · split
      · rw [lockedFlow_no_rnf]
        simp
      · rw [openFlow_no_rnf]
        simp

/-- C5 counterexample: on an empty registry, a join with `isHost = false`
that **does** present a creator token is still rejected with
`ROOM_NOT_FOUND` (the token never enters the check at
signaling-server.ts line 117), so the claimed if-and-only-if — whose
right-hand side requires "no creator token presented" — is false at this
input. -/
theorem C5_room_not_found_counterexample :
    ¬ (sentRoomNotFound (handleJoin stEmpty { sid := 7, readyState := 1 } "R" "Carol"
          none false (some "tk") "p1" 0).2 = true ↔
        (stEmpty.rm.getRoom "R" = none ∧ false = false ∧ (some "tk" : Option String) = none)) := by
  decide

/-! ## Claim theorems: relay (C6) -/

/-- C6: a relay message from a socket bound to an ACTIVE participant
leaves the server state unchanged and produces at most one outbound
copy; every copy goes to the participant stored under the message's
`targetId` in the sender's room (only if that record exists and its
socket is open), and its `participantId` is the sender's server-known id
— the client-supplied `participantId` is ignored.  In particular no
other participant receives a copy, and the sender gets no echo unless
they target themselves. -/
theorem C6_relay_targeted (st : ServerState) (sock : Socket) (p : Participant)
    (rtype : String) (targetId : Option String) (cpid payload : String)
    (hbound : JMap.get? st.participants sock.sid = some p) :
    (handleRelayMessage st sock rtype targetId cpid payload).1 = st ∧
      (handleRelayMessage st sock rtype targetId cpid payload).2.length ≤ 1 ∧
      (∀ s ∈ (handleRelayMessage st sock rtype targetId cpid payload).2,
        ∃ t room tgt, targetId = some t ∧ ¬ t = "" ∧
          st.rm.getRoom p.roomId = some room ∧
          JMap.get? room.participants t = some tgt ∧
          tgt.socket.readyState = 1 ∧
          s = (tgt.socket.sid, Out.relayOut rtype t p.id payload)) := by
  simp only [handleRelayMessage, hbound]
  cases targetId with
  | none => exact ⟨by trivial, by simp, by simp⟩
  | some t =>
    by_cases ht : t = ""
    · simp only [if_pos ht]
      exact ⟨by trivial, by simp, by simp⟩
    · simp only [if_neg ht]
      refine ⟨by trivial, ?_, ?_⟩
      · unfold RoomManager.sendTo
        split
        · simp
        · split
          · simp
          · split <;> simp
      · unfold RoomManager.sendTo
        split
        · simp
        · rename_i room hroom
          split
          · simp
          · rename_i tgt htgt
            split
            · rename_i hopen
              intro s hs
              rw [List.mem_singleton] at hs
              exact ⟨t, room, tgt, rfl, ht, hroom, htgt, hopen, hs⟩
            · simp

/-- Witness for C6: Alice relays an offer to Bob with a spoofed
`participantId`; the state is untouched and at most one copy goes out. -/
theorem C6_relay_targeted_witness :
    (handleRelayMessage stRelay { sid := 1, readyState := 1 } "offer" (some "bob")
        "spoofed" "sdp").1 = stRelay ∧
      (handleRelayMessage stRelay { sid := 1, readyState := 1 } "offer" (some "bob")
        "spoofed" "sdp").2.length ≤ 1 :=
  ⟨(C6_relay_targeted stRelay { sid := 1, readyState := 1 } aliceP "offer" (some "bob")
      "spoofed" "sdp" rfl).1,
   (C6_relay_targeted stRelay { sid := 1, readyState := 1 } aliceP "offer" (some "bob")
      "spoofed" "sdp" rfl).2.1⟩

/-! ## Claim theorems: unbound sockets (C8) -/

/-- What an UNBOUND socket actually receives for each message type (as
implemented): the "Not joined to a room" error for relay, chat,
participant-updated and moderator-action; a moderator-specific error for
lock/unlock/admit/reject; the unknown-type error for the recording
variants; and **nothing** for raise-hand, lower-hand and leave. -/
def unboundReply (sock : Socket) : InMsg → List (Nat × Out)
  | .join _ _ _ _ _ => []
  | .leave => []
  | .relay _ _ _ _ => sendError sock "Not joined to a room" none
  | .chat _ _ _ _ => sendError sock "Not joined to a room" none
  | .participantUpdated _ _ _ => sendError sock "Not joined to a room" none
  | .raiseHand => []
  | .lowerHand => []
  | .moderatorAction _ _ => sendError sock "Not joined to a room" none
  | .roomLocked => sendError sock "Only moderators can lock the room" none
  | .roomUnlocked => sendError sock "Only moderators can unlock the room" none
  | .admitUser _ => sendError sock "Only moderators can admit users" none
  | .rejectUser _ _ => sendError sock "Only moderators can reject users" none
  | .recordingStarted => sendError sock "Unknown message type" none
  | .recordingStopped => sendError sock "Unknown message type" none

/-- C8 counterexample: a `raise-hand` frame from an unbound (open)
socket produces **no** outbound envelope at all — in particular not the
claimed `error: "Not joined to a room"` (signaling-server.ts line 345
returns silently). -/
theorem C8_unbound_counterexample :
    handleMessage stEmpty { sid := 9, readyState := 1 } InMsg.raiseHand "x" 0 =
      (stEmpty, []) := rfl

/-- C8 (amended): a message from a socket bound to neither a Participant
nor a WaitingParticipant never changes any state, and the reply is
`unboundReply`: the "Not joined to a room" error only for relay, chat,
participant-updated and moderator-action; moderator-specific errors for
lock/unlock/admit/reject; the unknown-type error for the recording
variants; and no reply at all for raise-hand, lower-hand and leave. -/
theorem C8_unbound_amended (st : ServerState) (sock : Socket) (m : InMsg)
    (newId : String) (now : Nat)
    (hp : JMap.get? st.participants sock.sid = none)
    (hw : JMap.get? st.waitingParticipants sock.sid = none)
    (hm : m.isJoin = false) :
    handleMessage st sock m newId now = (st, unboundReply sock m) := by
  cases m with
  | join roomId name password isHost creatorToken => cases hm
  | leave =>
    simp only [handleMessage, handleDisconnect, hp, hw, unboundReply]
  | relay rtype targetId cpid payload =>
    simp only [handleMessage, handleRelayMessage, hp, unboundReply]
  | chat croomId cpid text replyTo =>
    simp only [handleMessage, handleChat, hp, unboundReply]
  | participantUpdated a b c =>
    simp only [handleMessage, handleParticipantUpdate, hp, unboundReply]
  | raiseHand =>
    simp only [handleMessage, handleRaiseHand, hp, unboundReply]
  | lowerHand =>
    simp only [handleMessage, handleLowerHand, hp, unboundReply]
  | moderatorAction targetId action =>
    simp only [handleMessage, handleModeratorAction, hp, unboundReply]
  | roomLocked =>
    simp only [handleMessage, handleRoomLock, hp, unboundReply]
  | roomUnlocked =>
    simp only [handleMessage, handleRoomUnlock, hp, unboundReply]
  | admitUser targetId =>
    simp only [handleMessage, handleAdmitUser, hp, unboundReply]
  | rejectUser targetId reason =>
    simp only [handleMessage, handleRejectUser, hp, unboundReply]
  | recordingStarted =>
    simp only [handleMessage, unboundReply]
  | recordingStopped =>
    simp only [handleMessage, unboundReply]

/-- Witness for the amended C8: an unbound chat gets exactly the
"Not joined to a room" error and the state is untouched. -/
theorem C8_unbound_amended_witness :
    handleMessage stEmpty { sid := 9, readyState := 1 } (InMsg.chat "R" "spoof" "hi" none)
        "x" 0 =
      (stEmpty, unboundReply { sid := 9, readyState := 1 } (InMsg.chat "R" "spoof" "hi" none)) :=
  C8_unbound_amended stEmpty { sid := 9, readyState := 1 } (InMsg.chat "R" "spoof" "hi" none)
    "x" 0 rfl rfl rfl

end Mikroroom
